import Mathlib

/-!
Verification development for the Nodo-Image batch image-processing service.

The definitions below are a shallow embedding of the Python sources:
`nodo.py` / `nodo2.py` (batch coordinators), `objects.py` / `objects2.py`
(the per-image transformation object `NodoOptimizado`), `image_processor.py`
(the optimized single-image pipeline) and `xml_handler.py` (wire codec).

Modelling conventions:
 - machine strings are modelled as `List Char` (obtained from Lean string
   literals via `.data`) so that the Python string operations
   (`split`, `strip`, `replace`, `in`, `isdigit`) can be modelled by
   structurally recursive functions that the kernel can evaluate;
 - bytes are `List Nat`;
 - Python floats are modelled as rationals `ℚ` (the numeric code under
   study only performs `max`/`min`/division by constants, which is exact);
 - fallible Python code (code that can raise) returns `Option`;
 - the external collaborators (PIL image codec, the `gzip` module) are
   either parameters of the functions that call them or, for `gzip`, a
   simplified executable stand-in `gzipComprimir`/`gzipDescomprimir`
   that keeps only the magic-header check of the real format.
-/

namespace NodoImage

/-! ## String (`List Char`) utilities mirroring Python primitives -/

/-- Models Python `str.isdigit` restricted to ASCII digits:
true iff the list is nonempty and every character is a digit. -/
def esDigitos (l : List Char) : Bool :=
  !l.isEmpty && l.all Char.isDigit

/-- Models Python `str.replace (c, '')`: remove every occurrence of `c`. -/
def quitarChar (c : Char) (l : List Char) : List Char :=
  l.filter (fun x => x ≠ c)

/-- Character-list version of "is a prefix of". -/
def esPrefijo : List Char → List Char → Bool
  | [], _ => true
  | _ :: _, [] => false
  | a :: resto, b :: restoB => a = b && esPrefijo resto restoB

/-- Models the Python substring test `sub in s` (first argument is the
candidate substring, second the string searched). -/
def esInfijo (sub : List Char) : List Char → Bool
  | [] => sub.isEmpty
  | x :: resto => esPrefijo sub (x :: resto) || esInfijo sub resto

/-- Models Python `str.strip()` (whitespace removal on both ends). -/
def recortarEspacios (l : List Char) : List Char :=
  ((l.dropWhile Char.isWhitespace).reverse.dropWhile Char.isWhitespace).reverse

/-- Numeric value of a list of ASCII digits, most significant first. -/
def natDeDigitos (l : List Char) : Nat :=
  l.foldl (fun n c => 10 * n + (c.toNat - 48)) 0

/-- Models Python `int(s)` on the strings produced by this code base:
an optional leading minus sign followed by at least one ASCII digit.
(`int` also accepts surrounding whitespace, a `+` sign and `_` digit
separators; those inputs do not occur here.)  `none` models `ValueError`. -/
def pyInt (l : List Char) : Option Int :=
  if l.head? = some '-' then
    if esDigitos l.tail then some (-(natDeDigitos l.tail : Int)) else none
  else if esDigitos l then some (natDeDigitos l : Int) else none

/-- Split a character list at every occurrence of the separator character,
models Python `str.split(c)` for a one-character separator. -/
def separarChar (c : Char) : List Char → List (List Char)
  | [] => [[]]
  | x :: resto =>
    let r := separarChar c resto
    if x = c then [] :: r
    else
      match r with
      | [] => [[x]]
      | y :: ys => (x :: y) :: ys

/-- The unsigned part of the Python `float(s)` model (`pyFloat`): digits
with at most one decimal point, at least one digit in total. -/
def pyFloatNucleo (resto : List Char) : Option ℚ :=
  match separarChar '.' resto with
  | [a] => if esDigitos a then some ((natDeDigitos a : ℚ)) else none
  | [a, b] =>
    if (a.all Char.isDigit && b.all Char.isDigit) && (!a.isEmpty || !b.isEmpty) then
      some ((natDeDigitos a : ℚ) + (natDeDigitos b : ℚ) / ((10 : ℚ) ^ b.length))
    else none
  | _ => none

/-- Models Python `float(s)` on the strings relevant here: an optional
leading minus, then digits with at most one decimal point and at least one
digit overall.  (`float` also accepts exponents, `inf`, `nan`; such inputs
do not occur in the studied code paths.)  `none` models `ValueError`. -/
def pyFloat (l : List Char) : Option ℚ :=
  (pyFloatNucleo (if l.head? = some '-' then l.tail else l)).map
    (fun v => if l.head? = some '-' then -v else v)

/-- Models Python `str.split(', ')` (the two-character separator used for
the legacy comma-joined transformation attribute). -/
def separarComaEspacio : List Char → List (List Char)
  | [] => [[]]
  | ',' :: ' ' :: resto => [] :: separarComaEspacio resto
  | x :: resto =>
    match separarComaEspacio resto with
    | [] => [[x]]
    | y :: ys => (x :: y) :: ys

/-- Models Python `str.lower()` (ASCII). -/
def minusculas (l : List Char) : List Char := l.map Char.toLower

/-- Models Python `str.upper()` (ASCII). -/
def mayusculas (l : List Char) : List Char := l.map Char.toUpper

/-! ## Admission control (`nodo2.py`, `GestorNodos`)

`GestorNodos.__init__` sets `capacidad_maxima = 100000` and
`imagenes_procesando = 0`.  `procesar_xml_imagenes` admits a batch of
`num_imagenes` images only when
`imagenes_procesando + num_imagenes <= capacidad_maxima` (otherwise it
returns a capacity error without touching the counter), increments the
counter by the batch size under the lock, and in its `finally` block
decrements it by the same batch size exactly once.
`convertir_imagen_unica` is the batch-size-1 instance of the same scheme
(its guard `imagenes_procesando >= capacidad_maxima` is the negation of
`imagenes_procesando + 1 <= capacidad_maxima`).

Because every mutation of the counter happens inside `with self.lock`,
an execution of the process is a sequence of atomic admissions and
releases; a state is therefore described by the list of batch sizes that
have been admitted and not yet released, and
`imagenes_procesando` is the sum of that list. -/

/-- `capacidad_maxima` from `GestorNodos.__init__` in `nodo2.py`. -/
def capacidadMaxima : Nat := 100000

/-- The value of the `imagenes_procesando` counter in a state described by
the list of in-flight (admitted, unreleased) batch sizes. -/
def imagenesProcesando (enVuelo : List Nat) : Nat := enVuelo.sum

/-- Reachable states of the admission counter of `GestorNodos`
(`nodo2.py`): initially nothing is in flight; a batch of `n` images is
admitted only under the guard
`imagenes_procesando + n ≤ capacidad` (a failed guard returns the
capacity error and changes nothing, so it needs no constructor); the
`finally` block of an admitted batch releases exactly that batch's full
size, exactly once, whether or not images in it failed. -/
inductive Alcanzable (capacidad : Nat) : List Nat → Prop
  | inicial : Alcanzable capacidad []
  | admite (enVuelo : List Nat) (n : Nat)
      (previo : Alcanzable capacidad enVuelo)
      (guarda : imagenesProcesando enVuelo + n ≤ capacidad) :
      Alcanzable capacidad (n :: enVuelo)
  | libera (antes : List Nat) (n : Nat) (despues : List Nat)
      (previo : Alcanzable capacidad (antes ++ n :: despues)) :
      Alcanzable capacidad (antes ++ despues)

/-! ## Numeric filter-parameter mappings (`nodo2.py` dispatch and
`objects2.py` methods)

`_aplicar_transformaciones_optimizado` in `nodo2.py` parses an integer
level from the token, clamps it to 0..100, and maps it:
  blur:      `radio = max(0.1, min(10.0, valor / 10.0))`, then calls
             `nodo.desenfocar(radio)`;
  sharpen:   `factor = max(0.0, min(3.0, valor / 33.33))`;
  brightness and contrast:
             `max(0.1, min(2.0, valor / 50.0))`, then calls
             `nodo.ajustar_brillo_contraste(brillo, contraste)`.

`objects2.py` then applies, inside `NodoOptimizado`:
  `desenfocar(nivel)`:             Gaussian radius `max(0.0, min(50.0, nivel / 2.0))`;
  `ajustar_brillo_contraste(brillo, contraste)`:
      `ImageEnhance` factors `max(0.0, min(2.0, brillo / 50.0))` and
      `max(0.0, min(2.0, contraste / 50.0))`.

So the value `nodo2.py` computes as a multiplier is re-interpreted by
`objects2.py` as a 0..100 level and divided by 50 a second time. -/

/-- The clamp `max(0, min(100, valor))` applied to every parsed filter
level in `_aplicar_transformaciones_optimizado` (`nodo2.py`). -/
def nivelLimitado (v : Int) : Int := max 0 (min 100 v)

/-- `radio = max(0.1, min(10.0, valor / 10.0))` — the blur radius computed
at the call site in `nodo2.py` from the clamped level. -/
def radioDesenfoqueLlamada (v : Int) : ℚ :=
  max (1 / 10) (min 10 ((nivelLimitado v : ℚ) / 10))

/-- `brillo = max(0.1, min(2.0, brillo_val / 50.0))` — the brightness (and,
with the same formula, contrast) multiplier computed at the call site in
`nodo2.py` from the clamped level. -/
def factorBrilloLlamada (v : Int) : ℚ :=
  max (1 / 10) (min 2 ((nivelLimitado v : ℚ) / 50))

/-- `max(0.0, min(50.0, nivel / 2.0))` — the Gaussian radius that
`NodoOptimizado.desenfocar` (`objects2.py`) derives from its argument. -/
def radioDesenfocarAplicado (nivel : ℚ) : ℚ := max 0 (min 50 (nivel / 2))

/-- `factor_brillo = max(0.0, min(2.0, brillo / 50.0))` — the
`ImageEnhance.Brightness` factor that
`NodoOptimizado.ajustar_brillo_contraste` (`objects2.py`) derives from its
argument (the contrast factor uses the same formula). -/
def factorBrilloAplicado (nivel : ℚ) : ℚ := max 0 (min 2 (nivel / 50))

/-- The Gaussian blur radius actually applied to the image for a client
blur level `v`: `nodo2.py` computes `radioDesenfoqueLlamada v` and passes
it to `objects2.py`'s `desenfocar`. -/
def radioGaussCompuesto (v : Int) : ℚ :=
  radioDesenfocarAplicado (radioDesenfoqueLlamada v)

/-- The brightness enhancement factor actually applied to the image for a
client brightness level `v`: `nodo2.py` computes `factorBrilloLlamada v`
and passes it to `objects2.py`'s `ajustar_brillo_contraste`. -/
def factorBrilloCompuesto (v : Int) : ℚ :=
  factorBrilloAplicado (factorBrilloLlamada v)

/-! ## XML parameter value conversion (`xml_handler.py`, `_parse_value`)

```
value = value.strip()
if value.lower() in ('true', 'false'):
    return value.lower() == 'true'
if value.replace('-', '').replace('.', '').isdigit():
    return float(value) if '.' in value else int(value)
return value
```
(`XMLHandler._parse_value`; `StreamingXMLParser._parse_value` performs the
same digit test split into a float case and an int case.)  A raised
`ValueError` from `int(...)` or `float(...)` is modelled as `none`. -/

/-- The dynamic value produced by `_parse_value`. -/
inductive Valor where
  | booleano (b : Bool)
  | entero (n : Int)
  | flotante (q : ℚ)
  | cadena (s : List Char)
deriving DecidableEq, Repr

/-- Model of `XMLHandler._parse_value` (`xml_handler.py`).  `none` models
an uncaught `ValueError` escaping from `int(value)` or `float(value)`. -/
def parse_value (valor : List Char) : Option Valor :=
  let v := recortarEspacios valor
  if minusculas v = "true".data ∨ minusculas v = "false".data then
    some (.booleano (minusculas v = "true".data))
  else if esDigitos (quitarChar '.' (quitarChar '-' v)) then
    if '.' ∈ v then (pyFloat v).map .flotante
    else (pyInt v).map .entero
  else
    some (.cadena v)

/-- The shape of numeric-looking input on which the conversion performed
by `_parse_value` actually succeeds: at most one decimal point and no
minus sign after the first character. -/
def formaNumericaSegura (l : List Char) : Prop :=
  l.count '.' ≤ 1 ∧ '-' ∉ l.drop 1

instance (l : List Char) : Decidable (formaNumericaSegura l) := by
  unfold formaNumericaSegura
  infer_instance

/-! ## Helper lemmas about characters -/

theorem toNat_de_digito {c : Char} (h : c.isDigit = true) :
    48 ≤ c.toNat ∧ c.toNat ≤ 57 := by
  simp only [Char.isDigit, Bool.and_eq_true, decide_eq_true_eq] at h
  obtain ⟨h1, h2⟩ := h
  exact ⟨h1, h2⟩

theorem digito_no_espacio {c : Char} (h : c.isDigit = true) :
    c.isWhitespace = false := by
  have hn := toNat_de_digito h
  by_contra hws
  simp only [Bool.not_eq_false, Char.isWhitespace, Bool.or_eq_true, decide_eq_true_eq] at hws
  rcases hws with ((rfl | rfl) | rfl) | rfl <;> simp [Char.toNat, UInt32.size] at hn

theorem digito_minuscula {c : Char} (h : c.isDigit = true) :
    c.toLower = c := by
  have hn := toNat_de_digito h
  unfold Char.toLower
  rw [if_neg]
  intro hc
  omega

theorem digito_no_letra {c : Char} {d : Char} (h : c.isDigit = true)
    (hd : 97 ≤ d.toNat) : c ≠ d := by
  have hn := toNat_de_digito h
  intro he
  subst he
  omega

/-! ## Claims C3 and C8 -/

/-- C3 (confirmed): in every state of the admission counter of
`GestorNodos` (`nodo2.py`) reachable from startup by admissions that pass
the guard `imagenes_procesando + n ≤ capacidad_maxima` (a failed guard
rejects the whole batch and mutates nothing) and by whole-batch releases
(the `finally` block decrements by the full admitted size exactly once,
regardless of per-image failures), the counter satisfies
`0 ≤ imagenes_procesando ≤ capacidad`. -/
theorem admision_invariante (capacidad : Nat) (enVuelo : List Nat)
    (h : Alcanzable capacidad enVuelo) :
    0 ≤ imagenesProcesando enVuelo ∧ imagenesProcesando enVuelo ≤ capacidad := by
  refine ⟨Nat.zero_le _, ?_⟩
  induction h with
  | inicial => simp [imagenesProcesando]
  | admite enVuelo n previo guarda ih =>
    simp only [imagenesProcesando, List.sum_cons] at *
    omega
  | libera antes n despues previo ih =>
    simp only [imagenesProcesando, List.sum_append, List.sum_cons] at *
    omega

/-- Witness for C3: after admitting batches of sizes 60 and 40 under
capacity `capacidad_maxima = 100000` and releasing the first, the state is
reachable and the invariant holds there. -/
theorem admision_invariante_testigo :
    0 ≤ imagenesProcesando [40] ∧ imagenesProcesando [40] ≤ capacidadMaxima :=
  admision_invariante capacidadMaxima [40]
    (by
      have paso1 : Alcanzable capacidadMaxima [60] :=
        .admite [] 60 .inicial (by simp [imagenesProcesando, capacidadMaxima])
      have paso2 : Alcanzable capacidadMaxima [40, 60] :=
        .admite [60] 40 paso1 (by simp [imagenesProcesando, capacidadMaxima])
      exact .libera [40] 60 [] paso2)

/-- C8 (code bug): the claim (and the comments in both source files) makes
brightness/contrast level 50 the neutral point, mapped to the multiplier
1.0.  `nodo2.py` indeed computes the multiplier 1.0 for level 50, but it
passes that multiplier to `NodoOptimizado.ajustar_brillo_contraste`
(`objects2.py`), which re-interprets its argument as a 0..100 level and
divides by 50 once more, so the `ImageEnhance` factor actually applied at
the documented neutral level is `1/50 = 0.02` (a nearly black image), and
no client level can reach the neutral factor 1 (the applied factor never
exceeds `1/25`). -/
theorem brillo_nivel50_no_neutral :
    factorBrilloLlamada 50 = 1 ∧
    factorBrilloCompuesto 50 = 1 / 50 ∧
    (1 / 50 : ℚ) ≠ 1 ∧
    ∀ v : Int, factorBrilloCompuesto v ≤ 1 / 25 := by
  refine ⟨?_, ?_, by norm_num, ?_⟩
  · simp [factorBrilloLlamada, nivelLimitado, max_def, min_def]
    norm_num
  · simp [factorBrilloCompuesto, factorBrilloAplicado, factorBrilloLlamada,
      nivelLimitado, max_def, min_def]
    norm_num
  · intro v
    have hle : factorBrilloLlamada v ≤ 2 := by
      unfold factorBrilloLlamada
      exact max_le (by norm_num) (min_le_left _ _)
    unfold factorBrilloCompuesto factorBrilloAplicado
    refine max_le (by norm_num) (le_trans (min_le_right _ _) ?_)
    linarith

/-! ## Lemmas about the string utilities, towards claim C10 -/

theorem dropWhile_identidad (p : Char → Bool) (l : List Char)
    (h : ∀ c ∈ l, p c = false) : l.dropWhile p = l := by
  cases l with
  | nil => rfl
  | cons x xs => simp [List.dropWhile_cons, h x (by simp)]

theorem recortar_sin_espacios (l : List Char)
    (h : ∀ c ∈ l, c.isWhitespace = false) : recortarEspacios l = l := by
  unfold recortarEspacios
  rw [dropWhile_identidad _ _ h,
    dropWhile_identidad _ _ (fun c hc => h c (by simpa using hc)),
    List.reverse_reverse]

theorem separar_ausente {c : Char} {l : List Char} (h : ¬ c ∈ l) :
    separarChar c l = [l] := by
  induction l with
  | nil => rfl
  | cons x xs ih =>
    have hx : ¬ x = c := fun he => h (he ▸ List.mem_cons_self x xs)
    have hxs : ¬ c ∈ xs := fun hm => h (List.mem_cons_of_mem x hm)
    simp [separarChar, hx, ih hxs]

theorem separar_unico {c : Char} {l : List Char} (h : l.count c = 1) :
    separarChar c l =
      [l.takeWhile (fun x => x ≠ c), (l.dropWhile (fun x => x ≠ c)).tail] := by
  induction l with
  | nil => simp at h
  | cons x xs ih =>
    by_cases hx : x = c
    · subst hx
      have hcero : xs.count x = 0 := by
        simp [List.count_cons] at h
        exact h
      have hno : ¬ x ∈ xs := by
        rw [← List.count_eq_zero] at *
        exact hcero
      simp [separarChar, separar_ausente hno, List.takeWhile_cons,
        List.dropWhile_cons]
    · have hcont : xs.count c = 1 := by
        simpa [List.count_cons, hx] using h
      simp [separarChar, hx, ih hcont, List.takeWhile_cons, List.dropWhile_cons]

theorem dropWhile_cabeza {c : Char} {l : List Char} (h : c ∈ l) :
    l.dropWhile (fun x => x ≠ c) =
      c :: (l.dropWhile (fun x => x ≠ c)).tail := by
  induction l with
  | nil => simp at h
  | cons x xs ih =>
    by_cases hx : x = c
    · subst hx
      simp [List.dropWhile_cons]
    · have hxs : c ∈ xs := by
        rcases List.mem_cons.mp h with he | hm
        · exact absurd he.symm hx
        · exact hm
      simpa [List.dropWhile_cons, hx] using ih hxs

theorem pyInt_exito (l : List Char)
    (hChars : ∀ c ∈ l, c = '-' ∨ c.isDigit = true)
    (hMenos : '-' ∉ l.drop 1)
    (hDigito : ∃ c ∈ l, c.isDigit = true) :
    (pyInt l).isSome = true := by
  obtain ⟨d, hdMem, hdDig⟩ := hDigito
  have hdNoMenos : d ≠ '-' := by
    intro he
    rw [he] at hdDig
    simp at hdDig
  cases l with
  | nil => simp at hdMem
  | cons x xs =>
    have hxsDig : ∀ c ∈ xs, c.isDigit = true := by
      intro c hc
      have hcl : c ∈ x :: xs := List.mem_cons_of_mem x hc
      rcases hChars c hcl with he | hd
      · exact absurd (he ▸ hc) (by simpa using hMenos)
      · exact hd
    by_cases hx : x = '-'
    · subst hx
      have hdXs : d ∈ xs := by
        rcases List.mem_cons.mp hdMem with he | hm
        · exact absurd he hdNoMenos
        · exact hm
      have hDigXs : esDigitos xs = true := by
        unfold esDigitos
        have : ¬ xs.isEmpty := by
          cases xs with
          | nil => simp at hdXs
          | cons _ _ => simp
        simp [this, List.all_eq_true]
        exact hxsDig
      simp [pyInt, hDigXs]
    · have hxDig : x.isDigit = true := by
        rcases hChars x (List.mem_cons_self x xs) with he | hd
        · exact absurd he hx
        · exact hd
      have hDigTodo : esDigitos (x :: xs) = true := by
        unfold esDigitos
        simp [List.all_eq_true, hxDig]
        exact hxsDig
      have hHead : ¬ ((x :: xs).head? = some '-') := by
        simp [hx]
      simp [pyInt, hHead, hDigTodo, hx]

theorem pyFloat_exito (l : List Char)
    (hChars : ∀ c ∈ l, c = '.' ∨ c = '-' ∨ c.isDigit = true)
    (hMenos : '-' ∉ l.drop 1)
    (hPunto : l.count '.' = 1)
    (hDigito : ∃ c ∈ l, c.isDigit = true) :
    (pyFloat l).isSome = true := by
  obtain ⟨d, hdMem, hdDig⟩ := hDigito
  have hdNoMenos : d ≠ '-' := by
    intro he
    rw [he] at hdDig
    simp at hdDig
  have hdNoPunto : d ≠ '.' := by
    intro he
    rw [he] at hdDig
    simp at hdDig
  -- the list examined after the optional sign
  set resto := if l.head? = some '-' then l.tail else l with hResto
  have hRestoProp :
      (∀ c ∈ resto, c = '.' ∨ c.isDigit = true) ∧
      resto.count '.' = 1 ∧ d ∈ resto := by
    by_cases hm : l.head? = some '-'
    · cases l with
      | nil => simp at hm
      | cons x xs =>
        have hx : x = '-' := by simpa using hm
        subst hx
        have hTailProp : ∀ c ∈ xs, c = '.' ∨ c.isDigit = true := by
          intro c hc
          rcases hChars c (List.mem_cons_of_mem _ hc) with h1 | h2 | h3
          · exact Or.inl h1
          · exact absurd (h2 ▸ hc) (by simpa using hMenos)
          · exact Or.inr h3
        have hdXs : d ∈ xs := by
          rcases List.mem_cons.mp hdMem with he | hm2
          · exact absurd he hdNoMenos
          · exact hm2
        refine ⟨by simpa [hResto, hm] using hTailProp, ?_, by simpa [hResto, hm] using hdXs⟩
        have : resto = xs := by simp [hResto, hm]
        rw [this]
        simpa [List.count_cons] using hPunto
    · have hRestoL : resto = l := by simp [hResto, hm]
      rw [hRestoL]
      refine ⟨?_, hPunto, hdMem⟩
      intro c hc
      rcases hChars c hc with h1 | h2 | h3
      · exact Or.inl h1
      · exfalso
        subst h2
        cases l with
        | nil => simp at hc
        | cons x xs =>
          rcases List.mem_cons.mp hc with he | hmem
          · rw [← he] at hm
            simp at hm
          · exact hMenos (by simpa using hmem)
      · exact Or.inr h3
  obtain ⟨hRC, hRP, hRD⟩ := hRestoProp
  -- decompose `resto` around its unique decimal point
  have hMemPunto : '.' ∈ resto := by
    rw [← List.count_pos_iff, hRP]
    norm_num
  have hSep := separar_unico (c := '.') (l := resto) hRP
  set a := resto.takeWhile (fun x => x ≠ '.') with hA
  set b := (resto.dropWhile (fun x => x ≠ '.')).tail with hB
  have hDescomp : resto = a ++ '.' :: b := by
    conv_lhs => rw [← List.takeWhile_append_dropWhile (p := fun x => x ≠ '.') (l := resto)]
    rw [← hA, dropWhile_cabeza hMemPunto, ← hB]
  have haNoPunto : ∀ c ∈ a, c ≠ '.' := by
    intro c hc
    have h1 := List.mem_takeWhile_imp (hA ▸ hc)
    simpa using h1
  have haDig : ∀ c ∈ a, c.isDigit = true := by
    intro c hc
    have hcMem : c ∈ resto := (List.takeWhile_sublist _).subset (hA ▸ hc)
    rcases hRC c hcMem with h1 | h2
    · exact absurd h1 (haNoPunto c hc)
    · exact h2
  have haCount : a.count '.' = 0 := by
    rw [List.count_eq_zero]
    intro hc
    exact haNoPunto '.' hc rfl
  have hbCount : b.count '.' = 0 := by
    have hsuma : resto.count '.' = a.count '.' + (1 + b.count '.') := by
      rw [hDescomp]
      simp [List.count_append, List.count_cons]
      omega
    omega
  have hbDig : ∀ c ∈ b, c.isDigit = true := by
    intro c hc
    have hne : c ≠ '.' := by
      intro he
      subst he
      rw [List.count_eq_zero] at hbCount
      exact hbCount hc
    have hcMem : c ∈ resto := by
      rw [hDescomp]
      exact List.mem_append_right _ (List.mem_cons_of_mem _ hc)
    rcases hRC c hcMem with h1 | h2
    · exact absurd h1 hne
    · exact h2
  have hNoVacio : (!a.isEmpty || !b.isEmpty) = true := by
    have hd2 : d ∈ a ++ '.' :: b := hDescomp ▸ hRD
    rcases List.mem_append.mp hd2 with hda | hdb
    · simp [List.isEmpty_eq_false.mpr (List.ne_nil_of_mem hda)]
    · rcases List.mem_cons.mp hdb with he | hm2
      · exact absurd he hdNoPunto
      · simp [List.isEmpty_eq_false.mpr (List.ne_nil_of_mem hm2)]
  unfold pyFloat
  rw [show (if l.head? = some '-' then l.tail else l) = resto from hResto.symm]
  simp only [Option.isSome_map']
  unfold pyFloatNucleo
  rw [hSep]
  simp [List.all_eq_true.mpr haDig, List.all_eq_true.mpr hbDig, hNoVacio]

/-! ## Claim C10 -/

/-- Counterexample for C10: the numeric-looking test of `_parse_value`
passes for `"1.2.3"` (the string with dots and minus signs removed is all
digits) and for `"1-2"`, yet the subsequent `float("1.2.3")` and
`int("1-2")` raise `ValueError` (modelled by `none`), so `_parse_value`
does not return a value on every input string. -/
theorem parse_value_lanza_excepcion :
    parse_value "1.2.3".data = none ∧ parse_value "1-2".data = none := by
  constructor <;> rfl

/-- C10, amended: `_parse_value` (`xml_handler.py`) returns a boolean,
integer, float or string value — the `int(...)`/`float(...)` conversion
guarded by the digit test cannot raise — only on inputs whose digit test
passes with at most one dot and with a minus sign at most in leading
position; strings such as `"1.2.3"` or `"1-2"` pass the digit test but
make the conversion raise `ValueError`. -/
theorem parse_value_seguro (l : List Char)
    (hDig : esDigitos (quitarChar '.' (quitarChar '-' l)) = true)
    (hForma : formaNumericaSegura l) :
    (parse_value l).isSome = true := by
  obtain ⟨hPuntos, hMenos⟩ := hForma
  have hTodos : ∀ c ∈ l, c = '.' ∨ c = '-' ∨ c.isDigit = true := by
    intro c hc
    by_cases c1 : c = '.'
    · exact Or.inl c1
    by_cases c2 : c = '-'
    · exact Or.inr (Or.inl c2)
    refine Or.inr (Or.inr ?_)
    have hcFil : c ∈ quitarChar '.' (quitarChar '-' l) := by
      unfold quitarChar
      simp [List.mem_filter, hc, c1, c2]
    unfold esDigitos at hDig
    rw [Bool.and_eq_true, List.all_eq_true] at hDig
    exact hDig.2 c hcFil
  have hDigito : ∃ c ∈ l, c.isDigit = true := by
    unfold esDigitos at hDig
    rw [Bool.and_eq_true, List.all_eq_true] at hDig
    obtain ⟨hne, hall⟩ := hDig
    have : quitarChar '.' (quitarChar '-' l) ≠ [] := by
      intro he
      rw [he] at hne
      simp at hne
    obtain ⟨c, hc⟩ := List.exists_mem_of_ne_nil _ this
    refine ⟨c, ?_, hall c hc⟩
    unfold quitarChar at hc
    exact (List.mem_filter.mp ((List.mem_filter.mp hc).1)).1
  have hNoVacio : l ≠ [] := by
    obtain ⟨c, hc, _⟩ := hDigito
    exact List.ne_nil_of_mem hc
  have hSinEspacios : ∀ c ∈ l, c.isWhitespace = false := by
    intro c hc
    rcases hTodos c hc with rfl | rfl | hd
    · rfl
    · rfl
    · exact digito_no_espacio hd
  have hv : recortarEspacios l = l := recortar_sin_espacios l hSinEspacios
  have hCabezaNoLetra : ∀ letras : List Char,
      (∀ d ∈ letras.head?, 97 ≤ d.toNat) → minusculas l ≠ letras := by
    intro letras hLetras he
    cases l with
    | nil => exact hNoVacio rfl
    | cons x xs =>
      have hx : letras.head? = some (x.toLower) := by
        rw [← he]
        simp [minusculas]
      have h97 : 97 ≤ x.toLower.toNat := hLetras _ (by simp [hx])
      rcases hTodos x (List.mem_cons_self x xs) with rfl | rfl | hd
      · exact absurd h97 (by decide)
      · exact absurd h97 (by decide)
      · rw [digito_minuscula hd] at h97
        have := toNat_de_digito hd
        omega
  have hNoTrue : ¬ (minusculas l = "true".data) := by
    apply hCabezaNoLetra
    intro d hd
    rw [show ("true".data).head? = some 't' from rfl] at hd
    simp at hd
    subst hd
    decide
  have hNoFalse : ¬ (minusculas l = "false".data) := by
    apply hCabezaNoLetra
    intro d hd
    rw [show ("false".data).head? = some 'f' from rfl] at hd
    simp at hd
    subst hd
    decide
  unfold parse_value
  rw [hv, if_neg (by
    intro hcon
    rcases hcon with h1 | h2
    · exact hNoTrue h1
    · exact hNoFalse h2), if_pos hDig]
  by_cases hPuntoMem : '.' ∈ l
  · rw [if_pos hPuntoMem, Option.isSome_map']
    have hCuenta : l.count '.' = 1 := by
      have := List.count_pos_iff.mpr hPuntoMem
      omega
    exact pyFloat_exito l hTodos hMenos hCuenta hDigito
  · rw [if_neg hPuntoMem, Option.isSome_map']
    refine pyInt_exito l ?_ hMenos hDigito
    intro c hc
    rcases hTodos c hc with rfl | h2 | h3
    · exact absurd hc hPuntoMem
    · exact Or.inl h2
    · exact Or.inr h3

/-- Witness for C10: the input `"12.5"` passes the digit test, has a safe
numeric shape, and `_parse_value` returns a value on it. -/
theorem parse_value_seguro_testigo :
    esDigitos (quitarChar '.' (quitarChar '-' "12.5".data)) = true ∧
    formaNumericaSegura "12.5".data ∧
    (parse_value "12.5".data).isSome = true :=
  ⟨by decide, by decide, parse_value_seguro "12.5".data (by decide) (by decide)⟩

/-! ## The per-image transformation object (`objects2.py`, `NodoOptimizado`)

The object keeps `imagen_procesada` (modelled by its pixel dimensions,
which is all the transformation bookkeeping reads back), the list
`transformaciones_aplicadas` and the constant `MAX_TRANSFORMACIONES`.
Every public method first calls `_puede_aplicar_transformacion`
(`len(transformaciones_aplicadas) < MAX_TRANSFORMACIONES`) and, when it
applies, `_registrar_transformacion` appends one entry.  The source
registers formatted strings (`f"rotar_{angle}"` …); here the entries are
kept structurally as `Registro` values.

The new size produced by PIL's `rotate(angle, expand=True)` depends on
trigonometry inside the external codec; it is taken as a parameter
`rotTam` of every function that can reach `rotar`.  Pixel-level changes
(mode conversions, filters, enhancement) happen inside the external codec
and do not influence the bookkeeping modelled here. -/

/-- `MAX_TRANSFORMACIONES` of `NodoOptimizado.__init__` in `objects2.py`
(the optimized variant). -/
def MAX_TRANSFORMACIONES : Nat := 20

/-- `MAX_TRANSFORMACIONES` of `NodoOptimizado.__init__` in `objects.py`
(the minimal variant). -/
def MAX_TRANSFORMACIONES_minimo : Nat := 5

/-- One entry of `transformaciones_aplicadas` (structural rendering of the
formatted strings registered by the source). -/
inductive Registro where
  | escalaGrises
  | redimensionar (w h : Int)
  | recortar (x1 y1 x2 y2 : Int)
  | rotar (angulo : Int)
  | reflejar (direccion : List Char)
  | desenfocar (nivel : ℚ)
  | perfilar (nivel : ℚ)
  | brilloContraste (brillo contraste : ℚ)
  | nitidez (nivel : Int)
  | saturacion (nivel : Int)
  | insertarTexto (texto : List Char) (x y : Int) (tam : Int)
deriving DecidableEq, Repr

/-- The state of a `NodoOptimizado` instance. -/
structure Nodo where
  tam : Int × Int
  aplicadas : List Registro
  maxT : Nat
deriving DecidableEq, Repr

/-- A freshly constructed `NodoOptimizado` (`objects2.py`) whose
`imagen_procesada` has the given dimensions. -/
def nodoInicial (tam : Int × Int) : Nodo :=
  { tam := tam, aplicadas := [], maxT := MAX_TRANSFORMACIONES }

/-- `_puede_aplicar_transformacion` of `objects2.py`. -/
def puedeAplicar (e : Nodo) : Bool := e.aplicadas.length < e.maxT

/-- `_registrar_transformacion` of `objects2.py` (appends one entry). -/
def registrar (e : Nodo) (r : Registro) : Nodo :=
  { e with aplicadas := e.aplicadas ++ [r] }

/-- `NodoOptimizado.escala_grises` (pixel-mode conversion is external). -/
def escala_grises (e : Nodo) : Nodo :=
  if puedeAplicar e then registrar e .escalaGrises else e

/-- `NodoOptimizado.redimensionar` (resamples to the requested size). -/
def redimensionar (tam : Int × Int) (e : Nodo) : Nodo :=
  if puedeAplicar e then registrar { e with tam := tam } (.redimensionar tam.1 tam.2)
  else e

/-- `NodoOptimizado.recortar`: the box is clamped into the current bounds
and the crop is applied — and registered — only when the clamped box is
nondegenerate (`x2 > x1 and y2 > y1`). -/
def recortar (caja : Int × Int × Int × Int) (e : Nodo) : Nodo :=
  if puedeAplicar e then
    let x1 := max 0 (min caja.1 e.tam.1)
    let y1 := max 0 (min caja.2.1 e.tam.2)
    let x2 := max 0 (min caja.2.2.1 e.tam.1)
    let y2 := max 0 (min caja.2.2.2 e.tam.2)
    if x2 > x1 ∧ y2 > y1 then
      registrar { e with tam := (x2 - x1, y2 - y1) } (.recortar x1 y1 x2 y2)
    else e
  else e

/-- `NodoOptimizado.rotar` with `expand=True`: the resulting bounding box
is computed by the external codec, here the parameter `rotTam`. -/
def rotar (rotTam : Int × Int → Int → Int × Int) (angulo : Int) (e : Nodo) : Nodo :=
  if puedeAplicar e then registrar { e with tam := rotTam e.tam angulo } (.rotar angulo)
  else e

/-- `NodoOptimizado.reflejar`: every direction flips (unknown directions
fall back to a horizontal flip) and registers; flips keep the size. -/
def reflejar (direccion : List Char) (e : Nodo) : Nodo :=
  if puedeAplicar e then registrar e (.reflejar direccion) else e

/-- `NodoOptimizado.desenfocar`: the Gaussian filter runs only for a
positive clamped radius, but the registration is unconditional. -/
def desenfocar (nivel : ℚ) (e : Nodo) : Nodo :=
  if puedeAplicar e then registrar e (.desenfocar nivel) else e

/-- `NodoOptimizado.perfilar`. -/
def perfilar (nivel : ℚ) (e : Nodo) : Nodo :=
  if puedeAplicar e then registrar e (.perfilar nivel) else e

/-- `NodoOptimizado.ajustar_brillo_contraste`. -/
def ajustar_brillo_contraste (brillo contraste : ℚ) (e : Nodo) : Nodo :=
  if puedeAplicar e then registrar e (.brilloContraste brillo contraste) else e

/-- `NodoOptimizado.ajustar_nitidez`. -/
def ajustar_nitidez (nivel : Int) (e : Nodo) : Nodo :=
  if puedeAplicar e then registrar e (.nitidez nivel) else e

/-- `NodoOptimizado.ajustar_saturacion`. -/
def ajustar_saturacion (nivel : Int) (e : Nodo) : Nodo :=
  if puedeAplicar e then registrar e (.saturacion nivel) else e

/-- `NodoOptimizado.insertar_texto` (the font size is clamped to 8..500
before use and registration). -/
def insertar_texto (texto : List Char) (pos : Int × Int) (tam : Int) (e : Nodo) : Nodo :=
  if puedeAplicar e then
    registrar e (.insertarTexto texto pos.1 pos.2 (max 8 (min 500 tam)))
  else e

/-- One method invocation on a `NodoOptimizado`. -/
inductive Metodo where
  | escalaGrises
  | redimensionar (w h : Int)
  | recortar (x1 y1 x2 y2 : Int)
  | rotar (angulo : Int)
  | reflejar (direccion : List Char)
  | desenfocar (nivel : ℚ)
  | perfilar (nivel : ℚ)
  | brilloContraste (brillo contraste : ℚ)
  | nitidez (nivel : Int)
  | saturacion (nivel : Int)
  | insertarTexto (texto : List Char) (x y : Int) (tam : Int)
deriving DecidableEq, Repr

/-- Dispatch one method invocation to the corresponding method. -/
def aplicarMetodo (rotTam : Int × Int → Int → Int × Int) (m : Metodo) (e : Nodo) : Nodo :=
  match m with
  | .escalaGrises => escala_grises e
  | .redimensionar w h => redimensionar (w, h) e
  | .recortar x1 y1 x2 y2 => recortar (x1, y1, x2, y2) e
  | .rotar angulo => rotar rotTam angulo e
  | .reflejar d => reflejar d e
  | .desenfocar n => desenfocar n e
  | .perfilar n => perfilar n e
  | .brilloContraste b c => ajustar_brillo_contraste b c e
  | .nitidez n => ajustar_nitidez n e
  | .saturacion n => ajustar_saturacion n e
  | .insertarTexto t x y tam => insertar_texto t (x, y) tam e

/-- Run a sequence of method invocations in order. -/
def correr (rotTam : Int × Int → Int → Int × Int) (ms : List Metodo) (e : Nodo) : Nodo :=
  ms.foldl (fun e m => aplicarMetodo rotTam m e) e

/-- The methods that register an entry whenever the cap gate lets them
run.  `recortar` is the exception: a box that is degenerate after
clamping applies and records nothing. -/
def registraSiempre (m : Metodo) : Bool :=
  match m with
  | .recortar _ _ _ _ => false
  | _ => true

theorem paso_conserva_max (rotTam : Int × Int → Int → Int × Int) (m : Metodo) (e : Nodo) :
    (aplicarMetodo rotTam m e).maxT = e.maxT := by
  cases m <;>
    simp only [aplicarMetodo, escala_grises, redimensionar, recortar, rotar, reflejar,
      desenfocar, perfilar, ajustar_brillo_contraste, ajustar_nitidez,
      ajustar_saturacion, insertar_texto, registrar] <;>
    split_ifs <;> rfl

theorem paso_cota (rotTam : Int × Int → Int → Int × Int) (m : Metodo) (e : Nodo)
    (h : e.aplicadas.length ≤ e.maxT) :
    (aplicarMetodo rotTam m e).aplicadas.length ≤ e.maxT := by
  cases m <;>
    simp only [aplicarMetodo, escala_grises, redimensionar, recortar, rotar, reflejar,
      desenfocar, perfilar, ajustar_brillo_contraste, ajustar_nitidez,
      ajustar_saturacion, insertar_texto, registrar, puedeAplicar] <;>
    split_ifs <;>
    simp_all
      [List.length_append] <;> omega

theorem paso_exacto (rotTam : Int × Int → Int → Int × Int) (m : Metodo) (e : Nodo)
    (h : registraSiempre m = true) :
    (aplicarMetodo rotTam m e).aplicadas.length =
      if e.aplicadas.length < e.maxT then e.aplicadas.length + 1
      else e.aplicadas.length := by
  cases m
  case recortar => simp [registraSiempre] at h
  all_goals
    simp only [aplicarMetodo, escala_grises, redimensionar, rotar, reflejar,
      desenfocar, perfilar, ajustar_brillo_contraste, ajustar_nitidez,
      ajustar_saturacion, insertar_texto, registrar, puedeAplicar]
  all_goals split_ifs <;> simp_all [List.length_append]

theorem correr_conserva_max (rotTam : Int × Int → Int → Int × Int) (ms : List Metodo)
    (e : Nodo) : (correr rotTam ms e).maxT = e.maxT := by
  induction ms generalizing e with
  | nil => rfl
  | cons m resto ih =>
    simp only [correr, List.foldl_cons] at *
    rw [ih, paso_conserva_max]

theorem correr_exacto (rotTam : Int × Int → Int → Int × Int) (ms : List Metodo) (e : Nodo)
    (hTodos : ∀ m ∈ ms, registraSiempre m = true) (h : e.aplicadas.length ≤ e.maxT) :
    (correr rotTam ms e).aplicadas.length =
      min e.maxT (e.aplicadas.length + ms.length) := by
  induction ms generalizing e with
  | nil =>
    simp only [correr, List.foldl_nil, List.length_nil, Nat.add_zero]
    omega
  | cons m resto ih =>
    have hm : registraSiempre m = true := hTodos m (by simp)
    have hResto : ∀ x ∈ resto, registraSiempre x = true :=
      fun x hx => hTodos x (List.mem_cons_of_mem m hx)
    have hPaso := paso_exacto rotTam m e hm
    have hMax := paso_conserva_max rotTam m e
    have hCota : (aplicarMetodo rotTam m e).aplicadas.length ≤
        (aplicarMetodo rotTam m e).maxT := by
      rw [hMax, hPaso]
      split_ifs <;> omega
    have hIH := ih (aplicarMetodo rotTam m e) hResto hCota
    simp only [correr, List.foldl_cons] at *
    rw [hIH, hMax, hPaso, List.length_cons]
    split_ifs <;> omega

/-- C4, amended: the per-image cap constants are 5 (`objects.py`, the
minimal variant) and 20 (`objects2.py`, the optimized variant); the number
of applied-and-recorded operations never exceeds the cap for any method
sequence, and a fresh image given more than `max_ops` operations ends with
exactly `max_ops` recorded — provided every operation in the list is of a
kind that registers whenever the gate lets it run.  The original claim's
"exactly `max_ops`" does not hold for arbitrary operation lists: a crop
whose clamped box is degenerate passes the gate yet applies and records
nothing (see the counterexample). -/
theorem tope_transformaciones :
    MAX_TRANSFORMACIONES = 20 ∧
    MAX_TRANSFORMACIONES_minimo = 5 ∧
    (∀ (rotTam : Int × Int → Int → Int × Int) (ms : List Metodo) (e : Nodo),
      e.aplicadas.length ≤ e.maxT →
      (correr rotTam ms e).aplicadas.length ≤ e.maxT) ∧
    (∀ (rotTam : Int × Int → Int → Int × Int) (ms : List Metodo) (tam : Int × Int),
      (∀ m ∈ ms, registraSiempre m = true) →
      MAX_TRANSFORMACIONES < ms.length →
      (correr rotTam ms (nodoInicial tam)).aplicadas.length = MAX_TRANSFORMACIONES) := by
  refine ⟨rfl, rfl, ?_, ?_⟩
  · intro rotTam ms e h
    induction ms generalizing e with
    | nil => exact h
    | cons m resto ih =>
      simp only [correr, List.foldl_cons] at *
      have h1 := paso_cota rotTam m e h
      have h2 := paso_conserva_max rotTam m e
      exact le_trans (ih (aplicarMetodo rotTam m e) (h2 ▸ h1)) (le_of_eq h2)
  · intro rotTam ms tam hTodos hLargo
    rw [correr_exacto rotTam ms (nodoInicial tam) hTodos (by simp [nodoInicial])]
    simp only [nodoInicial, MAX_TRANSFORMACIONES] at *
    omega

/-- Witness for C4: 21 grayscale operations (all of the always-registering
kind) on a fresh image leave exactly 20 recorded operations. -/
theorem tope_transformaciones_testigo :
    (∀ m ∈ List.replicate 21 Metodo.escalaGrises, registraSiempre m = true) ∧
    MAX_TRANSFORMACIONES < (List.replicate 21 Metodo.escalaGrises).length ∧
    (correr (fun t _ => t) (List.replicate 21 Metodo.escalaGrises)
      (nodoInicial (300, 300))).aplicadas.length = MAX_TRANSFORMACIONES :=
  ⟨by decide, by decide,
    tope_transformaciones.2.2.2 _ _ _ (by decide) (by decide)⟩

set_option maxRecDepth 4096 in
/-- Counterexample for C4: a fresh image given 21 crop operations (more
than the cap of 20) whose clamped box `(5,5,5,5)` is degenerate applies
and records nothing at all, so "exactly `max_ops` are applied and
recorded" fails for this operation list. -/
theorem tope_exacto_contraejemplo :
    MAX_TRANSFORMACIONES < (List.replicate 21 (Metodo.recortar 5 5 5 5)).length ∧
    (correr (fun t _ => t) (List.replicate 21 (Metodo.recortar 5 5 5 5))
      (nodoInicial (300, 300))).aplicadas.length = 0 ∧
    (0 : Nat) ≠ MAX_TRANSFORMACIONES := by
  refine ⟨by decide, by decide, by decide⟩

/-! ## Token dispatch (`nodo2.py`, `_aplicar_transformaciones_optimizado`)

The method splits the legacy attribute on `', '`, sorts the tokens into
four category buckets by substring tests (`ajustes_color`, `geometricas`,
`efectos`, `otros`), concatenates the buckets in that order, and then
dispatches each token through an `if`/`elif` substring chain, parsing the
parameters out of the token; every per-token exception is swallowed by
`except Exception: pass`. -/

/-- `factor = max(0.0, min(3.0, valor / 33.33))` — the sharpen factor
computed at the call site in `nodo2.py` (the float literal `33.33` is
modelled as the rational `3333/100`). -/
def factorPerfilarLlamada (v : Int) : ℚ :=
  max 0 (min 3 ((nivelLimitado v : ℚ) / (3333 / 100)))

/-- The substring keywords of the `ajustes_color` bucket. -/
def palabrasColor : List (List Char) :=
  ["escala_grises".data, "ajustar_brillo".data, "ajustar_saturacion".data,
   "ajustar_nitidez".data]

/-- The substring keywords of the `geometricas` bucket. -/
def palabrasGeometricas : List (List Char) :=
  ["rotar".data, "redimensionar".data, "reflejar".data, "recortar".data]

/-- The substring keywords of the `efectos` bucket. -/
def palabrasEfectos : List (List Char) :=
  ["desenfocar".data, "perfilar".data]

/-- `any(x in trans for x in palabras)`. -/
def contieneAlguna (trans : List Char) (palabras : List (List Char)) : Bool :=
  palabras.any (fun p => esInfijo p trans)

/-- The four buckets of `_aplicar_transformaciones_optimizado`. -/
inductive Categoria where
  | color
  | geometrica
  | efecto
  | otro
deriving DecidableEq, Repr

/-- The bucket a token is sorted into (the `if`/`elif` chain over the
keyword lists). -/
def categoria (trans : List Char) : Categoria :=
  if contieneAlguna trans palabrasColor then .color
  else if contieneAlguna trans palabrasGeometricas then .geometrica
  else if contieneAlguna trans palabrasEfectos then .efecto
  else .otro

/-- The reordering performed before dispatch:
`ajustes_color + geometricas + efectos + otros`.  The single pass that
appends each token to its bucket keeps the relative order inside each
bucket, which is exactly a stable four-way filter. -/
def ordenarCategorias (ts : List (List Char)) : List (List Char) :=
  ts.filter (fun t => categoria t = .color) ++
  ts.filter (fun t => categoria t = .geometrica) ++
  ts.filter (fun t => categoria t = .efecto) ++
  ts.filter (fun t => categoria t = .otro)

/-- The `if`/`elif` dispatch chain applied to one token
(`nodo2.py`, lines 127-247).  Parameter parsing failures fall back to the
documented defaults (the `try`/`except` blocks around each `int(...)`),
and an exception anywhere in a branch is swallowed by the surrounding
`except Exception: pass`.  The final `insertar_texto` branch calls the
method with the keyword argument `tamaño_fuente`, which does not exist in
`objects2.py`'s `insertar_texto` signature (`tamano_fuente`, no accent):
the call raises `TypeError` before doing anything, the handler swallows
it, and the token has no effect, so that branch is the identity here. -/
def despachar (rotTam : Int × Int → Int → Int × Int) (e : Nodo) (trans : List Char) : Nodo :=
  if esInfijo "escala_grises".data trans then escala_grises e
  else if esInfijo "rotar".data trans then
    rotar rotTam
      (match pyInt ((separarChar '_' trans).getLastD []) with
       | some a => a
       | none => 45) e
  else if esInfijo "redimensionar".data trans then
    if 'x' ∈ trans then
      match separarChar 'x' ((separarChar '_' trans).getD 1 []) with
      | d0 :: d1 :: _ =>
        match pyInt d0, pyInt d1 with
        | some w, some h => redimensionar (w, h) e
        | _, _ => redimensionar (200, 200) e
      | _ => redimensionar (200, 200) e
    else redimensionar (200, 200) e
  else if esInfijo "recortar".data trans then
    let partes := separarChar '_' trans
    if 5 ≤ partes.length then
      match pyInt (partes.getD 1 []), pyInt (partes.getD 2 []),
          pyInt (partes.getD 3 []), pyInt (partes.getD 4 []) with
      | some x1, some y1, some x2, some y2 => recortar (x1, y1, x2, y2) e
      | _, _, _, _ => recortar (0, 0, 100, 100) e
    else recortar (0, 0, 100, 100) e
  else if esInfijo "reflejar".data trans then
    let partes := separarChar '_' trans
    reflejar (if 1 < partes.length then partes.getD 1 [] else "horizontal".data) e
  else if esInfijo "desenfocar".data trans then
    desenfocar
      (match pyInt ((separarChar '_' trans).getLastD []) with
       | some v => radioDesenfoqueLlamada v
       | none => 2) e
  else if esInfijo "perfilar".data trans then
    perfilar
      (match pyInt ((separarChar '_' trans).getLastD []) with
       | some v => factorPerfilarLlamada v
       | none => 2) e
  else if esInfijo "ajustar_brillo".data trans then
    let partes := separarChar '_' trans
    let brilloVal := if 2 < partes.length then pyInt (partes.getD 2 []) else some 50
    let contrasteVal := if 4 < partes.length then pyInt (partes.getD 4 []) else some 50
    match brilloVal, contrasteVal with
    | some bv, some cv =>
      ajustar_brillo_contraste (factorBrilloLlamada bv) (factorBrilloLlamada cv) e
    | _, _ => ajustar_brillo_contraste 1 1 e
  else if esInfijo "ajustar_nitidez".data trans then
    ajustar_nitidez
      (match pyInt ((separarChar '_' trans).getLastD []) with
       | some v => nivelLimitado v
       | none => 50) e
  else if esInfijo "ajustar_saturacion".data trans then
    ajustar_saturacion
      (match pyInt ((separarChar '_' trans).getLastD []) with
       | some v => nivelLimitado v
       | none => 50) e
  else if esInfijo "insertar_texto".data trans then
    e
  else e

/-- `_aplicar_transformaciones_optimizado`: split on `', '`, regroup by
category, then dispatch each token in the regrouped order. -/
def aplicarTransformacionesOptimizado (rotTam : Int × Int → Int → Int × Int)
    (e : Nodo) (transStr : List Char) : Nodo :=
  (ordenarCategorias (separarComaEspacio transStr)).foldl (despachar rotTam) e

/-! ## The optimized single-image pipeline (`image_processor.py`)

`apply_single_transformation_optimized(img, trans)` dispatches on
`trans['type']` and calls the PIL codec.  The PIL image is modelled by its
dimensions, its mode and the history of codec calls made on it (an
adequate surrogate for the pixel contents, which live in the external
codec).  A structured transformation is its `type` string plus a parameter
map of `Valor` values (as produced by the wire codec's `_parse_value`).

Parameter conversions (`int(...)`, `float(...)`) on parameters of the
wrong dynamic type are modelled by the Python numeric coercions; a string
parameter that does not convert falls back to the branch default here,
whereas in the source the raised `ValueError` aborts the image — no
theorem below depends on that corner. -/

/-- One call into the PIL codec, as recorded by the `Imagen` surrogate. -/
inductive EfectoPil where
  | convertirModo (modo : List Char)
  | redimensionarPil (w h : Int)
  | recortarPil (izq arriba der abajo : Int)
  | rotarPil (grados : ℚ) (expande : Bool)
  | espejoPil
  | voltearPil
  | desenfoquePil (radio : ℚ)
  | nitidezPil (factor : ℚ)
  | brilloPil (factor : ℚ)
  | contrastePil (factor : ℚ)
  | colorPil (factor : ℚ)
  | marcaAguaPil (texto : List Char) (x y : Int)
  | autocontrastePil (corte : ℚ)
  | invertirPil
deriving DecidableEq, Repr

/-- Surrogate for a PIL image: dimensions, mode, and codec-call history. -/
structure Imagen where
  ancho : Int
  alto : Int
  modo : List Char
  historial : List EfectoPil
deriving DecidableEq, Repr

/-- Append one codec call to the image's history. -/
def conEfecto (img : Imagen) (ef : EfectoPil) : Imagen :=
  { img with historial := img.historial ++ [ef] }

/-- A structured transformation: the `type` plus its parameter map. -/
structure Transf where
  tipo : List Char
  params : List (List Char × Valor)
deriving DecidableEq, Repr

/-- `trans.get(clave)`. -/
def obtenerParam (t : Transf) (clave : List Char) : Option Valor :=
  (t.params.find? (fun p => p.1 = clave)).map Prod.snd

/-- Truncation toward zero, the behavior of Python `int(float)`. -/
def truncar (q : ℚ) : Int := if 0 ≤ q then ⌊q⌋ else ⌈q⌉

/-- `int(trans.get(clave, defecto))`. -/
def paramEntero (t : Transf) (clave : List Char) (defecto : Int) : Int :=
  match obtenerParam t clave with
  | some (.entero n) => n
  | some (.flotante q) => truncar q
  | some (.booleano b) => if b then 1 else 0
  | some (.cadena s) => (pyInt s).getD defecto
  | none => defecto

/-- `float(trans.get(clave, defecto))`. -/
def paramRacional (t : Transf) (clave : List Char) (defecto : ℚ) : ℚ :=
  match obtenerParam t clave with
  | some (.entero n) => (n : ℚ)
  | some (.flotante q) => q
  | some (.booleano b) => if b then 1 else 0
  | some (.cadena s) => (pyFloat s).getD defecto
  | none => defecto

/-- `trans.get(clave, False)` used for truthiness. -/
def paramBooleano (t : Transf) (clave : List Char) : Bool :=
  match obtenerParam t clave with
  | some (.booleano b) => b
  | some (.entero n) => n ≠ 0
  | some (.flotante q) => q ≠ 0
  | some (.cadena s) => !s.isEmpty
  | none => false

/-- `trans.get(clave, defecto)` for string parameters. -/
def paramCadena (t : Transf) (clave : List Char) (defecto : List Char) : List Char :=
  match obtenerParam t clave with
  | some (.cadena s) => s
  | _ => defecto

/-- The known `type` strings of `apply_single_transformation_optimized`. -/
def tiposConocidos : List (List Char) :=
  ["grayscale".data, "resize".data, "crop".data, "rotate".data, "reflect".data,
   "blur".data, "sharpen".data, "brightness_contrast".data, "watermark".data,
   "autocontrast".data, "invert".data]

/-- The watermark position parser of `add_watermark_optimized`: a string
like `"(10,10)"` is stripped of parentheses and split on the comma; any
failure falls back to `(10, 10)`. -/
def posicionMarcaAgua (s : List Char) : Int × Int :=
  if ',' ∈ s then
    match separarChar ',' (quitarChar '(' (quitarChar ')' s)) with
    | c0 :: c1 :: _ =>
      match pyInt c0, pyInt c1 with
      | some x, some y => (x, y)
      | _, _ => (10, 10)
    | _ => (10, 10)
  else (10, 10)

/-- `add_watermark_optimized` (`image_processor.py`): converts to RGBA if
needed, then composites the text overlay (font size, opacity and color
affect only pixels inside the external codec). -/
def add_watermark_optimized (t : Transf) (img : Imagen) : Imagen :=
  let texto := paramCadena t "text".data "Watermark".data
  let pos := posicionMarcaAgua (paramCadena t "position".data "(10,10)".data)
  let conAlfa :=
    if img.modo ≠ "RGBA".data then
      conEfecto { img with modo := "RGBA".data } (.convertirModo "RGBA".data)
    else img
  conEfecto conAlfa (.marcaAguaPil texto pos.1 pos.2)

/-- `apply_single_transformation_optimized` (`image_processor.py`): the
`if`/`elif` chain on `trans['type']`, ending in `return img` for every
unknown type.  `pilRot` supplies the bounding box computed by
`img.rotate(..., expand=True)` inside the external codec. -/
def apply_single_transformation_optimized (pilRot : Int × Int → ℚ → Int × Int)
    (t : Transf) (img : Imagen) : Imagen :=
  if t.tipo = "grayscale".data then
    conEfecto { img with modo := "L".data } (.convertirModo "L".data)
  else if t.tipo = "resize".data then
    let w := paramEntero t "width".data img.ancho
    let h := paramEntero t "height".data img.alto
    conEfecto { img with ancho := w, alto := h } (.redimensionarPil w h)
  else if t.tipo = "crop".data then
    let izq := max 0 (paramEntero t "left".data 0)
    let arriba := max 0 (paramEntero t "top".data 0)
    let der := min img.ancho (paramEntero t "right".data img.ancho)
    let abajo := min img.alto (paramEntero t "bottom".data img.alto)
    conEfecto { img with ancho := der - izq, alto := abajo - arriba }
      (.recortarPil izq arriba der abajo)
  else if t.tipo = "rotate".data then
    let grados := paramRacional t "degrees".data 0
    let expande := paramBooleano t "expand".data
    let tam := if expande then pilRot (img.ancho, img.alto) grados
      else (img.ancho, img.alto)
    conEfecto { img with ancho := tam.1, alto := tam.2 } (.rotarPil grados expande)
  else if t.tipo = "reflect".data then
    if paramCadena t "axis".data "horizontal".data = "horizontal".data then
      conEfecto img .espejoPil
    else conEfecto img .voltearPil
  else if t.tipo = "blur".data then
    conEfecto img (.desenfoquePil (min 10 (paramRacional t "radius".data 2)))
  else if t.tipo = "sharpen".data then
    conEfecto img (.nitidezPil (max (1/2) (min 3 (paramRacional t "factor".data 2))))
  else if t.tipo = "brightness_contrast".data then
    let brillo := max (1/10) (min 3 (paramRacional t "brightness".data 1))
    let contraste := max (1/10) (min 3 (paramRacional t "contrast".data 1))
    let color := max (1/10) (min 3 (paramRacional t "color".data 1))
    let paso1 := conEfecto (conEfecto img (.brilloPil brillo)) (.contrastePil contraste)
    if img.modo = "RGB".data ∨ img.modo = "RGBA".data then
      conEfecto paso1 (.colorPil color)
    else paso1
  else if t.tipo = "watermark".data then
    add_watermark_optimized t img
  else if t.tipo = "autocontrast".data then
    conEfecto img (.autocontrastePil (paramRacional t "cutoff".data 0))
  else if t.tipo = "invert".data then
    conEfecto img .invertirPil
  else img

/-- The transformation loop of `process_single_image_optimized`
(`image_processor.py`): `for trans in transformations: img = apply(...)`,
in the order given. -/
def aplicarListaTransf (pilRot : Int × Int → ℚ → Int × Int)
    (ts : List Transf) (img : Imagen) : Imagen :=
  ts.foldl (fun i t => apply_single_transformation_optimized pilRot t i) img

/-! ## Claims C5 and C9 -/

theorem ordenar_perm (ts : List (List Char)) : (ordenarCategorias ts).Perm ts := by
  induction ts with
  | nil => simp [ordenarCategorias]
  | cons t resto ih =>
    unfold ordenarCategorias at *
    rcases hcat : categoria t with _ | _ | _ | _ <;>
      simp only [List.filter_cons, hcat, reduceCtorEq, decide_eq_true_eq,
        if_true, if_false] <;>
      simp only [List.append_assoc] at *
    · exact ih.cons t
    · exact List.Perm.trans List.perm_middle (ih.cons t)
    · rw [← List.append_assoc]
      exact List.Perm.trans List.perm_middle
        (List.Perm.cons t (by simpa [List.append_assoc] using ih))
    · rw [← List.append_assoc, ← List.append_assoc]
      exact List.Perm.trans List.perm_middle
        (List.Perm.cons t (by simpa [List.append_assoc] using ih))

theorem ordenar_estable (ts : List (List Char)) (c : Categoria) :
    (ordenarCategorias ts).filter (fun t => categoria t = c) =
      ts.filter (fun t => categoria t = c) := by
  have hself : ∀ l : List (List Char),
      (l.filter (fun t => categoria t = c)).filter (fun t => categoria t = c) =
        l.filter (fun t => categoria t = c) := by
    intro l
    apply List.filter_eq_self.mpr
    intro a ha
    exact (List.mem_filter.mp ha).2
  have hdis : ∀ c2 : Categoria, c ≠ c2 → ∀ l : List (List Char),
      (l.filter (fun t => categoria t = c2)).filter (fun t => categoria t = c) = [] := by
    intro c2 hne l
    rw [List.filter_eq_nil_iff]
    intro a ha
    have h2 := (List.mem_filter.mp ha).2
    simp only [decide_eq_true_eq] at h2 ⊢
    intro h1
    exact hne (h1 ▸ h2 ▸ rfl)
  unfold ordenarCategorias
  simp only [List.filter_append]
  rcases c with _ | _ | _ | _
  · rw [hself, hdis .geometrica (by decide), hdis .efecto (by decide),
      hdis .otro (by decide)]
    simp
  · rw [hdis .color (by decide), hself, hdis .efecto (by decide),
      hdis .otro (by decide)]
    simp
  · rw [hdis .color (by decide), hdis .geometrica (by decide), hself,
      hdis .otro (by decide)]
    simp
  · rw [hdis .color (by decide), hdis .geometrica (by decide),
      hdis .efecto (by decide), hself]
    simp

/-- C5, amended: the pipelines disagree on operation order.  The
`image_processor.py` single-image loop applies operations strictly in the
order parsed from the client's input (last conjunct: the head of the list
is applied first, then the rest).  The batch node
(`nodo2.py`, `_aplicar_transformaciones_optimizado`) instead regroups the
parsed tokens by category — color adjustments, then geometric operations,
then effects, then everything else — before dispatching (third conjunct);
the regrouped sequence is a permutation of the parsed sequence (first
conjunct) and parsed order is preserved only within each category (second
conjunct). -/
theorem orden_operaciones :
    (∀ ts : List (List Char), (ordenarCategorias ts).Perm ts) ∧
    (∀ (ts : List (List Char)) (c : Categoria),
      (ordenarCategorias ts).filter (fun t => categoria t = c) =
        ts.filter (fun t => categoria t = c)) ∧
    (∀ (rotTam : Int × Int → Int → Int × Int) (e : Nodo) (s : List Char),
      aplicarTransformacionesOptimizado rotTam e s =
        (ordenarCategorias (separarComaEspacio s)).foldl (despachar rotTam) e) ∧
    (∀ (pilRot : Int × Int → ℚ → Int × Int) (t : Transf) (resto : List Transf)
      (img : Imagen),
      aplicarListaTransf pilRot (t :: resto) img =
        aplicarListaTransf pilRot resto
          (apply_single_transformation_optimized pilRot t img)) :=
  ⟨ordenar_perm, ordenar_estable, fun _ _ _ => rfl, fun _ _ _ _ => rfl⟩

set_option maxRecDepth 8192 in
/-- Counterexample for C5: the client order `rotar_45, escala_grises` is
reordered by `nodo2.py`'s grouping — the grayscale (a color adjustment) is
applied before the rotation (a geometric operation), so the pipeline does
not apply operations in the order they were parsed. -/
theorem orden_entrada_contraejemplo :
    ordenarCategorias ["rotar_45".data, "escala_grises".data] =
      ["escala_grises".data, "rotar_45".data] ∧
    ["escala_grises".data, "rotar_45".data] ≠
      ["rotar_45".data, "escala_grises".data] ∧
    (aplicarTransformacionesOptimizado (fun t _ => t) (nodoInicial (300, 300))
      "rotar_45, escala_grises".data).aplicadas =
      [Registro.escalaGrises, Registro.rotar 45] := by
  refine ⟨by decide, by decide, by decide⟩

/-- The keywords of the dispatch chain in
`_aplicar_transformaciones_optimizado` (`nodo2.py`). -/
def palabrasDespacho : List (List Char) :=
  ["escala_grises".data, "rotar".data, "redimensionar".data, "recortar".data,
   "reflejar".data, "desenfocar".data, "perfilar".data, "ajustar_brillo".data,
   "ajustar_nitidez".data, "ajustar_saturacion".data, "insertar_texto".data]

/-- C9 (confirmed): an operation of unknown kind is a pass-through no-op
in both pipelines.  In `apply_single_transformation_optimized`
(`image_processor.py`) a `type` outside the known list falls through every
branch and the image is returned unchanged; in `nodo2.py`'s token dispatch
a token containing none of the branch keywords matches no branch and
leaves the `NodoOptimizado` untouched; neither path raises, so the batch
is not rejected. -/
theorem operacion_desconocida_no_op :
    (∀ (pilRot : Int × Int → ℚ → Int × Int) (t : Transf) (img : Imagen),
      t.tipo ∉ tiposConocidos →
      apply_single_transformation_optimized pilRot t img = img) ∧
    (∀ (rotTam : Int × Int → Int → Int × Int) (e : Nodo) (trans : List Char),
      (∀ p ∈ palabrasDespacho, esInfijo p trans = false) →
      despachar rotTam e trans = e) := by
  constructor
  · intro pilRot t img h
    simp only [tiposConocidos, List.mem_cons, List.not_mem_nil, or_false] at h
    push_neg at h
    obtain ⟨h1, h2, h3, h4, h5, h6, h7, h8, h9, h10, h11⟩ := h
    simp [apply_single_transformation_optimized, h1, h2, h3, h4, h5, h6, h7,
      h8, h9, h10, h11]
  · intro rotTam e trans h
    have g1 := h "escala_grises".data (by simp [palabrasDespacho])
    have g2 := h "rotar".data (by simp [palabrasDespacho])
    have g3 := h "redimensionar".data (by simp [palabrasDespacho])
    have g4 := h "recortar".data (by simp [palabrasDespacho])
    have g5 := h "reflejar".data (by simp [palabrasDespacho])
    have g6 := h "desenfocar".data (by simp [palabrasDespacho])
    have g7 := h "perfilar".data (by simp [palabrasDespacho])
    have g8 := h "ajustar_brillo".data (by simp [palabrasDespacho])
    have g9 := h "ajustar_nitidez".data (by simp [palabrasDespacho])
    have g10 := h "ajustar_saturacion".data (by simp [palabrasDespacho])
    have g11 := h "insertar_texto".data (by simp [palabrasDespacho])
    simp [despachar, g1, g2, g3, g4, g5, g6, g7, g8, g9, g10, g11]

/-- Witness for C9: the unknown kind `sepia` (structured) and the unknown
token `sepia_10` (legacy) leave the image and the node unchanged. -/
theorem operacion_desconocida_testigo :
    ("sepia".data ∉ tiposConocidos) ∧
    (∀ p ∈ palabrasDespacho, esInfijo p "sepia_10".data = false) ∧
    apply_single_transformation_optimized (fun t _ => t)
      ⟨"sepia".data, []⟩ ⟨100, 100, "RGB".data, []⟩ = ⟨100, 100, "RGB".data, []⟩ ∧
    despachar (fun t _ => t) (nodoInicial (300, 300)) "sepia_10".data =
      nodoInicial (300, 300) :=
  ⟨by decide, by decide,
    operacion_desconocida_no_op.1 _ _ _ (by decide),
    operacion_desconocida_no_op.2 _ _ _ (by decide)⟩

/-! ## Payload decoding (claim C7)

`nodo2.py` decodes an image payload (both in
`_procesar_imagen_individual_optimizado` and in `convertir_imagen_unica`)
as

```
try:
    datos_comprimidos = base64.b64decode(datos_b64)
    datos_imagen = gzip.decompress(datos_comprimidos)
except:
    datos_imagen = base64.b64decode(datos_b64)
```

so a gzip failure falls back to the raw base64-decoded bytes, while a
base64 failure raises again inside the handler and propagates (caught by
the per-image wrapper).  `xml_handler.py`'s `StreamingXMLParser.endElement`
instead only runs `base64.b64decode(self.current_text.strip())` — it never
attempts gzip decompression.

Base64 is implemented concretely below (standard alphabet; the model
accepts `=` anywhere and any 6-bit-length not congruent to 1 mod 4,
whereas `b64decode` is stricter about placement — the payloads studied
here are canonical, and the general theorems consume the function through
hypotheses).  `gzip` itself is external; `gzipComprimir`/
`gzipDescomprimir` keep only the magic-header check of the real format,
and the general theorems take the decompressor as a parameter. -/

/-- The numeric value of one character of the standard base64 alphabet. -/
def valorBase64 (c : Char) : Option Nat :=
  if 'A' ≤ c ∧ c ≤ 'Z' then some (c.toNat - 65)
  else if 'a' ≤ c ∧ c ≤ 'z' then some (c.toNat - 71)
  else if '0' ≤ c ∧ c ≤ '9' then some (c.toNat + 4)
  else if c = '+' then some 62
  else if c = '/' then some 63
  else none

/-- The character encoding one 6-bit value. -/
def letraBase64 (n : Nat) : Char :=
  ("ABCDEFGHIJKLMNOPQRSTUVWXYZabcdefghijklmnopqrstuvwxyz0123456789+/".data).getD n 'A'

/-- Encode bytes three at a time into base64 characters with padding. -/
def codificarGruposBase64 : List Nat → List Char
  | [] => []
  | [b0] => [letraBase64 (b0 / 4), letraBase64 ((b0 % 4) * 16), '=', '=']
  | [b0, b1] =>
    [letraBase64 (b0 / 4), letraBase64 ((b0 % 4) * 16 + b1 / 16),
     letraBase64 ((b1 % 16) * 4), '=']
  | b0 :: b1 :: b2 :: resto =>
    letraBase64 (b0 / 4) :: letraBase64 ((b0 % 4) * 16 + b1 / 16) ::
    letraBase64 ((b1 % 16) * 4 + b2 / 64) :: letraBase64 (b2 % 64) ::
    codificarGruposBase64 resto

/-- Models `base64.b64encode` on a byte list. -/
def base64Codificar (bs : List Nat) : List Char :=
  codificarGruposBase64 (bs.map (· % 256))

/-- Reassemble bytes from 6-bit values, four at a time. -/
def decodificarGruposBase64 : List Nat → Option (List Nat)
  | [] => some []
  | [_] => none
  | [v0, v1] => some [v0 * 4 + v1 / 16]
  | [v0, v1, v2] => some [v0 * 4 + v1 / 16, (v1 % 16) * 16 + v2 / 4]
  | v0 :: v1 :: v2 :: v3 :: resto =>
    (decodificarGruposBase64 resto).map
      (fun bs => (v0 * 4 + v1 / 16) :: ((v1 % 16) * 16 + v2 / 4) ::
        ((v2 % 4) * 64 + v3) :: bs)

/-- Models `base64.b64decode`; `none` models the raised `binascii.Error`. -/
def base64Decodificar (s : List Char) : Option (List Nat) :=
  match (s.filter (fun c => c ≠ '=')).mapM valorBase64 with
  | none => none
  | some vals => decodificarGruposBase64 vals

/-- Stand-in for the external `gzip.compress` (magic header only; the
DEFLATE stream itself lives in the external library). -/
def gzipComprimir (bs : List Nat) : List Nat := 31 :: 139 :: bs

/-- Stand-in for the external `gzip.decompress`: fails — raises, modelled
by `none` — unless the data starts with the gzip magic header. -/
def gzipDescomprimir (bs : List Nat) : Option (List Nat) :=
  match bs with
  | 31 :: 139 :: resto => some resto
  | _ => none

/-- The payload decoder of `nodo2.py` (the `try`/`except` block above),
parameterized by the external gzip decompressor. -/
def decodificarDatos (gunzip : List Nat → Option (List Nat))
    (datos : List Char) : Option (List Nat) :=
  match base64Decodificar datos with
  | none => none
  | some comprimidos =>
    match gunzip comprimidos with
    | some imagen => some imagen
    | none => some comprimidos

/-- The payload decoder of `StreamingXMLParser.endElement`
(`xml_handler.py`): base64 only. -/
def decodificarDatosStreaming (texto : List Char) : Option (List Nat) :=
  base64Decodificar (recortarEspacios texto)

/-- C7, amended: the `nodo2.py` decoders base64-decode and then attempt
gzip decompression, falling back to the raw base64-decoded bytes when
decompression fails, so both `base64(gzip(bytes))` and plain
`base64(bytes)` payloads are accepted without raising; the streaming XML
parser in `xml_handler.py`, however, only base64-decodes the payload and
never attempts gzip decompression. -/
theorem decodificador_gzip_con_respaldo :
    (∀ (gunzip : List Nat → Option (List Nat)) (datos : List Char)
      (comprimidos imagen : List Nat),
      base64Decodificar datos = some comprimidos →
      gunzip comprimidos = some imagen →
      decodificarDatos gunzip datos = some imagen) ∧
    (∀ (gunzip : List Nat → Option (List Nat)) (datos : List Char)
      (comprimidos : List Nat),
      base64Decodificar datos = some comprimidos →
      gunzip comprimidos = none →
      decodificarDatos gunzip datos = some comprimidos) ∧
    (∀ texto : List Char,
      decodificarDatosStreaming texto = base64Decodificar (recortarEspacios texto)) := by
  refine ⟨?_, ?_, fun _ => rfl⟩
  · intro gunzip datos comprimidos imagen h1 h2
    unfold decodificarDatos
    rw [h1]
    simp [h2]
  · intro gunzip datos comprimidos h1 h2
    unfold decodificarDatos
    rw [h1]
    simp [h2]

/-- Witness for C7: the concrete payload `base64(gzip(bytes))` decodes to
`bytes` through the gzip path, and the payload `base64(bytes)` of
non-gzip bytes decodes to `bytes` through the fallback. -/
theorem decodificador_gzip_con_respaldo_testigo :
    base64Decodificar (base64Codificar (gzipComprimir [72, 111, 108, 97])) =
      some (gzipComprimir [72, 111, 108, 97]) ∧
    gzipDescomprimir (gzipComprimir [72, 111, 108, 97]) = some [72, 111, 108, 97] ∧
    decodificarDatos gzipDescomprimir
      (base64Codificar (gzipComprimir [72, 111, 108, 97])) = some [72, 111, 108, 97] ∧
    base64Decodificar (base64Codificar [72, 111, 108, 97]) = some [72, 111, 108, 97] ∧
    gzipDescomprimir [72, 111, 108, 97] = none ∧
    decodificarDatos gzipDescomprimir (base64Codificar [72, 111, 108, 97]) =
      some [72, 111, 108, 97] :=
  ⟨by decide, by decide,
    decodificador_gzip_con_respaldo.1 gzipDescomprimir
      (base64Codificar (gzipComprimir [72, 111, 108, 97]))
      (gzipComprimir [72, 111, 108, 97]) [72, 111, 108, 97]
      (by decide) (by decide),
    by decide, by decide,
    decodificador_gzip_con_respaldo.2.1 gzipDescomprimir
      (base64Codificar [72, 111, 108, 97]) [72, 111, 108, 97]
      (by decide) (by decide)⟩

/-- Counterexample for C7: on the payload `base64(gzip(bytes))` the
streaming parser's decoder returns the still-compressed bytes — it
performs no gzip attempt at all — while the `nodo2.py` decoder described
by the claim returns the decompressed bytes.  So "the decoder first
base64-decodes it and attempts gzip decompression" is false of the
`xml_handler.py` decode site cited by the claim. -/
theorem decodificador_streaming_contraejemplo :
    decodificarDatos gzipDescomprimir
      (base64Codificar (gzipComprimir [72, 111, 108, 97])) = some [72, 111, 108, 97] ∧
    decodificarDatosStreaming
      (base64Codificar (gzipComprimir [72, 111, 108, 97])) =
      some (31 :: 139 :: [72, 111, 108, 97]) ∧
    (31 :: 139 :: [72, 111, 108, 97] : List Nat) ≠ [72, 111, 108, 97] := by
  refine ⟨by decide, by decide, by decide⟩

/-! ## The batch coordinator (`nodo2.py`, `procesar_xml_imagenes`)

After parsing and admission, the coordinator submits
`_procesar_imagen_individual_optimizado(imagen_elem, i, ...)` for every
image element to a thread pool, collects each future's result into
`resultados_por_indice[i]` as the futures complete (in an arbitrary
completion order), and then iterates `sorted(resultados_por_indice.keys())`
building the response: an error result appends an `<imagen>` element
carrying `error` and `indice_original`; a success result is encoded by
`_fusionar_nodo_a_xml_optimizado`, which on success appends an `<imagen>`
element with the payload and metadata (counted in `total_procesadas`) and
on an encoding failure appends nothing (counted in `total_errores`).

The external collaborators are parameters: `gunzip` (gzip), `abrirImagen`
(`PIL.Image.open`, returning the decoded dimensions or failing), and
`codificar` (`convertir_y_comprimir_optimizado`, producing the base64
payload or failing).  The completion order of the futures is the
parameter `orden`, the list of indices in the order their futures
complete; since every future resolves exactly once, `orden` is a
permutation of `0..n-1`. -/

/-- An `<imagen>` element of the input XML, with its attributes already
read with their defaults (`transformaciones=''`, `formato='JPEG'` made
upper-case at use, `calidad=int('85')`). -/
structure ImagenElem where
  texto : Option (List Char)
  transformaciones : List Char
  formato : List Char
  calidad : Nat
deriving DecidableEq, Repr

/-- An element with no payload (used as the out-of-range default of
indexed access; never reached under the theorems' hypotheses). -/
def elemVacio : ImagenElem := ⟨none, [], [], 0⟩

/-- The error message of a failed image, kept structurally. -/
inductive Mensaje where
  | sinDatos (indice : Nat)
  | errorBase64
  | errorDecodificacion
deriving DecidableEq, Repr

/-- The 4-tuple returned by `_procesar_imagen_individual_optimizado`:
`(None, error, None, None)` or `(nodo, None, formato, calidad)`. -/
inductive ResultadoInd where
  | fallo (mensaje : Mensaje)
  | exito (nodo : Nodo) (formato : List Char) (calidad : Nat)
deriving DecidableEq, Repr

/-- `_procesar_imagen_individual_optimizado` (`nodo2.py`): read the
payload and attributes, decode (base64 with gzip fallback, then
`Image.open`), construct the `NodoOptimizado`, apply the transformation
tokens when requested, and return the result; every exception is caught
and returned as an error tuple. -/
def procesarImagenIndividual (rotTam : Int × Int → Int → Int × Int)
    (gunzip : List Nat → Option (List Nat))
    (abrirImagen : List Nat → Option (Int × Int))
    (elem : ImagenElem) (indice : Nat) (aplicarTrans : Bool) : ResultadoInd :=
  let datos := recortarEspacios (elem.texto.getD [])
  if datos.isEmpty then .fallo (.sinDatos indice)
  else
    match decodificarDatos gunzip datos with
    | none => .fallo .errorBase64
    | some datosImagen =>
      match abrirImagen datosImagen with
      | none => .fallo .errorDecodificacion
      | some tam =>
        let nodo0 := nodoInicial tam
        let nodo :=
          if aplicarTrans ∧ ¬elem.transformaciones.isEmpty then
            aplicarTransformacionesOptimizado rotTam nodo0 elem.transformaciones
          else nodo0
        .exito nodo (mayusculas elem.formato) elem.calidad

/-- A successfully encoded `<imagen>` child of the response. -/
structure HijoExito where
  formato : List Char
  calidad : Nat
  transformaciones : List Registro
  totalTransformaciones : Nat
  indiceProcesado : Nat
  texto : List Char
deriving DecidableEq, Repr

/-- `_fusionar_nodo_a_xml_optimizado` (`nodo2.py`): encode the processed
image; on success return the response child, on failure (`codificar`
fails before the element is created) return nothing. -/
def fusionar (codificar : Nodo → List Char → Nat → Option (List Char))
    (nodo : Nodo) (formato : List Char) (calidad indice : Nat) : Option HijoExito :=
  (codificar nodo formato calidad).map (fun b64 =>
    { formato := formato, calidad := calidad, transformaciones := nodo.aplicadas,
      totalTransformaciones := nodo.aplicadas.length, indiceProcesado := indice,
      texto := b64 })

/-- One `<imagen>` child of the response document. -/
inductive HijoRespuesta where
  | conError (mensaje : Mensaje) (indiceOriginal : Nat)
  | procesada (hijo : HijoExito)
deriving DecidableEq, Repr

/-- The index attribute carried by a response child
(`indice_original` for errors, `indice_procesado` for successes). -/
def indiceHijo : HijoRespuesta → Nat
  | .conError _ i => i
  | .procesada h => h.indiceProcesado

/-- Whether a response child is an error element. -/
def esError : HijoRespuesta → Bool
  | .conError _ _ => true
  | .procesada _ => false

/-- The response document: its `<imagen>` children in order and the
`total_procesadas` / `total_errores` attributes. -/
structure Respuesta where
  hijos : List HijoRespuesta
  totalProcesadas : Nat
  totalErrores : Nat
deriving DecidableEq, Repr

/-- The loop body of the response-building pass, for one index: an error
result appends an error element and counts one error; a success result
appends the encoded element and counts one processed image, unless
encoding fails, in which case nothing is appended and one error is
counted. -/
def pasoRespuesta (codificar : Nodo → List Char → Nat → Option (List Char))
    (resultado : ResultadoInd) (indice : Nat) :
    Option HijoRespuesta × Nat × Nat :=
  match resultado with
  | .fallo m => (some (.conError m indice), 0, 1)
  | .exito nodo formato calidad =>
    match fusionar codificar nodo formato calidad indice with
    | some h => (some (.procesada h), 1, 0)
    | none => (none, 0, 1)

/-- Accumulate the response children and both counters over a list of
indices (the loop `for i in sorted(resultados_por_indice.keys())`). -/
def bucleRespuesta (f : Nat → Option HijoRespuesta × Nat × Nat) :
    List Nat → List HijoRespuesta × Nat × Nat
  | [] => ([], 0, 0)
  | i :: resto =>
    let (h, p, e) := f i
    let (hs, ps, es) := bucleRespuesta f resto
    (h.toList ++ hs, p + ps, e + es)

/-- The per-index result of the fan-out (the value stored into
`resultados_por_indice[i]`), a function of that image element alone. -/
def resultadoEn (rotTam : Int × Int → Int → Int × Int)
    (gunzip : List Nat → Option (List Nat))
    (abrirImagen : List Nat → Option (Int × Int))
    (elems : List ImagenElem) (aplicarTrans : Bool) (i : Nat) : ResultadoInd :=
  procesarImagenIndividual rotTam gunzip abrirImagen (elems.getD i elemVacio) i
    aplicarTrans

/-- The post-admission body of `procesar_xml_imagenes` (`nodo2.py`):
collect every index's result (each future resolves exactly once, in the
completion order `orden`), then build the response over the sorted
indices. -/
def procesarLote (rotTam : Int × Int → Int → Int × Int)
    (gunzip : List Nat → Option (List Nat))
    (abrirImagen : List Nat → Option (Int × Int))
    (codificar : Nodo → List Char → Nat → Option (List Char))
    (elems : List ImagenElem) (orden : List Nat) (aplicarTrans : Bool) : Respuesta :=
  let claves := List.insertionSort (· ≤ ·) orden
  let r :=
    bucleRespuesta
      (fun i => pasoRespuesta codificar
        (resultadoEn rotTam gunzip abrirImagen elems aplicarTrans i) i)
      claves
  { hijos := r.1, totalProcesadas := r.2.1, totalErrores := r.2.2 }

theorem claves_ordenadas {n : Nat} {orden : List Nat}
    (h : orden.Perm (List.range n)) :
    List.insertionSort (· ≤ ·) orden = List.range n := by
  have h1 : List.Sorted (· ≤ ·) (List.insertionSort (· ≤ ·) orden) :=
    List.sorted_insertionSort _ orden
  have h2 : List.Sorted (· ≤ ·) (List.range n) :=
    (List.pairwise_lt_range n).imp le_of_lt
  exact List.eq_of_perm_of_sorted ((List.perm_insertionSort _ orden).trans h) h1 h2

theorem bucle_hijos (f : Nat → Option HijoRespuesta × Nat × Nat) (l : List Nat) :
    (bucleRespuesta f l).1 = l.filterMap (fun i => (f i).1) := by
  induction l with
  | nil => rfl
  | cons i resto ih =>
    rcases hfi : f i with ⟨h, p, e⟩
    cases h <;> simp [bucleRespuesta, hfi, List.filterMap_cons, ih]

theorem bucle_total (f : Nat → Option HijoRespuesta × Nat × Nat) (l : List Nat)
    (h : ∀ i ∈ l, (f i).2.1 + (f i).2.2 = 1) :
    (bucleRespuesta f l).2.1 + (bucleRespuesta f l).2.2 = l.length := by
  induction l with
  | nil => rfl
  | cons i resto ih =>
    rcases hfi : f i with ⟨c, p, e⟩
    rcases hrec : bucleRespuesta f resto with ⟨hs, ps, es⟩
    have hi := h i (by simp)
    rw [hfi] at hi
    have hresto := ih (fun x hx => h x (List.mem_cons_of_mem i hx))
    rw [hrec] at hresto
    simp only [bucleRespuesta, hfi, hrec, List.length_cons]
    simp at hi hresto ⊢
    omega

theorem bucle_indices (f : Nat → Option HijoRespuesta × Nat × Nat) (l : List Nat)
    (h : ∀ i ∈ l, ∃ c, (f i).1 = some c ∧ indiceHijo c = i) :
    (bucleRespuesta f l).1.map indiceHijo = l := by
  induction l with
  | nil => rfl
  | cons i resto ih =>
    obtain ⟨c, hc, hci⟩ := h i (by simp)
    rcases hfi : f i with ⟨h0, p, e⟩
    rw [hfi] at hc
    simp only at hc
    subst hc
    have hresto := ih (fun x hx => h x (List.mem_cons_of_mem i hx))
    simp [bucleRespuesta, hfi, hresto, hci]

theorem bucle_todo_exito (f : Nat → Option HijoRespuesta × Nat × Nat) (l : List Nat)
    (h : ∀ i ∈ l, (f i).2.1 = 1 ∧ (f i).2.2 = 0) :
    (bucleRespuesta f l).2.1 = l.length ∧ (bucleRespuesta f l).2.2 = 0 := by
  induction l with
  | nil => exact ⟨rfl, rfl⟩
  | cons i resto ih =>
    rcases hfi : f i with ⟨c, p, e⟩
    rcases hrec : bucleRespuesta f resto with ⟨hs, ps, es⟩
    have hi := h i (by simp)
    rw [hfi] at hi
    have hresto := ih (fun x hx => h x (List.mem_cons_of_mem i hx))
    rw [hrec] at hresto
    simp only [bucleRespuesta, hfi, hrec, List.length_cons]
    simp at hi hresto ⊢
    omega

theorem bucle_indicador (f : Nat → Option HijoRespuesta × Nat × Nat) (l : List Nat)
    (j : Nat) (hj : j ∈ l) (hnd : l.Nodup)
    (hJ : (f j).2.1 = 0 ∧ (f j).2.2 = 1)
    (hOtros : ∀ i ∈ l, i ≠ j → (f i).2.1 = 1 ∧ (f i).2.2 = 0) :
    (bucleRespuesta f l).2.1 = l.length - 1 ∧ (bucleRespuesta f l).2.2 = 1 := by
  induction l with
  | nil => simp at hj
  | cons i resto ih =>
    rcases hfi : f i with ⟨c, p, e⟩
    rcases hrec : bucleRespuesta f resto with ⟨hs, ps, es⟩
    by_cases hij : i = j
    · subst hij
      have hNoResto : i ∉ resto := (List.nodup_cons.mp hnd).1
      have hRestoExito : ∀ x ∈ resto, (f x).2.1 = 1 ∧ (f x).2.2 = 0 := by
        intro x hx
        exact hOtros x (List.mem_cons_of_mem i hx)
          (fun he => hNoResto (he ▸ hx))
      have hr := bucle_todo_exito f resto hRestoExito
      rw [hrec] at hr
      rw [hfi] at hJ
      simp only [bucleRespuesta, hfi, hrec, List.length_cons]
      simp at hJ hr ⊢
      omega
    · have hjResto : j ∈ resto := by
        rcases List.mem_cons.mp hj with he | hm
        · exact absurd he.symm hij
        · exact hm
      have hi := hOtros i (by simp) hij
      rw [hfi] at hi
      have hr := ih hjResto (List.nodup_cons.mp hnd).2
        (fun x hx hne => hOtros x (List.mem_cons_of_mem i hx) hne)
      rw [hrec] at hr
      have hLen : 1 ≤ resto.length := List.length_pos.mpr (List.ne_nil_of_mem hjResto)
      simp only [bucleRespuesta, hfi, hrec, List.length_cons]
      simp at hi hr ⊢
      omega

theorem bucle_sin_errores (f : Nat → Option HijoRespuesta × Nat × Nat) (l : List Nat)
    (h : ∀ i ∈ l, ∀ c ∈ (f i).1, esError c = false) :
    (bucleRespuesta f l).1.filter esError = [] := by
  induction l with
  | nil => rfl
  | cons i resto ih =>
    rcases hfi : f i with ⟨c, p, e⟩
    have hresto := ih (fun x hx => h x (List.mem_cons_of_mem i hx))
    cases c with
    | none => simpa [bucleRespuesta, hfi] using hresto
    | some c0 =>
      have hc0 : esError c0 = false := by
        have := h i (by simp) c0
        rw [hfi] at this
        exact this (by simp)
      simp [bucleRespuesta, hfi, List.filter_cons, hc0, hresto]

theorem bucle_error_unico (f : Nat → Option HijoRespuesta × Nat × Nat) (l : List Nat)
    (j : Nat) (m : Mensaje) (hj : j ∈ l) (hnd : l.Nodup)
    (hJ : (f j).1 = some (.conError m j))
    (hOtros : ∀ i ∈ l, i ≠ j → ∃ h0, (f i).1 = some (.procesada h0)) :
    (bucleRespuesta f l).1.filter esError = [.conError m j] := by
  induction l with
  | nil => simp at hj
  | cons i resto ih =>
    rcases hfi : f i with ⟨c, p, e⟩
    by_cases hij : i = j
    · subst hij
      have hNoResto : i ∉ resto := (List.nodup_cons.mp hnd).1
      have hRestoSin : (bucleRespuesta f resto).1.filter esError = [] := by
        apply bucle_sin_errores
        intro x hx c0 hc0
        obtain ⟨h0, hh0⟩ := hOtros x (List.mem_cons_of_mem i hx)
          (fun he => hNoResto (he ▸ hx))
        rw [hh0] at hc0
        simp at hc0
        subst hc0
        rfl
      rw [hfi] at hJ
      simp only at hJ
      subst hJ
      simp [bucleRespuesta, hfi, List.filter_cons, esError, hRestoSin]
    · have hjResto : j ∈ resto := by
        rcases List.mem_cons.mp hj with he | hm
        · exact absurd he.symm hij
        · exact hm
      obtain ⟨h0, hh0⟩ := hOtros i (by simp) hij
      rw [hfi] at hh0
      simp only at hh0
      subst hh0
      have hr := ih hjResto (List.nodup_cons.mp hnd).2
        (fun x hx hne => hOtros x (List.mem_cons_of_mem i hx) hne)
      simp [bucleRespuesta, hfi, List.filter_cons, esError, hr]

theorem paso_indice (codificar : Nodo → List Char → Nat → Option (List Char))
    (r : ResultadoInd) (i : Nat) :
    ∀ c ∈ (pasoRespuesta codificar r i).1, indiceHijo c = i := by
  intro c hc
  cases r with
  | fallo m =>
    simp [pasoRespuesta] at hc
    subst hc
    rfl
  | exito nodo formato calidad =>
    simp only [pasoRespuesta] at hc
    cases hfus : fusionar codificar nodo formato calidad i with
    | none => rw [hfus] at hc; simp at hc
    | some h0 =>
      rw [hfus] at hc
      simp at hc
      subst hc
      unfold fusionar at hfus
      cases hcod : codificar nodo formato calidad with
      | none => rw [hcod] at hfus; simp at hfus
      | some b64 =>
        rw [hcod] at hfus
        simp at hfus
        rw [← hfus]
        rfl

theorem paso_total (codificar : Nodo → List Char → Nat → Option (List Char))
    (r : ResultadoInd) (i : Nat) :
    (pasoRespuesta codificar r i).2.1 + (pasoRespuesta codificar r i).2.2 = 1 := by
  cases r with
  | fallo m => rfl
  | exito nodo formato calidad =>
    simp only [pasoRespuesta]
    cases fusionar codificar nodo formato calidad i <;> rfl

/-- C1 (confirmed): for an admitted batch, the response of
`procesar_xml_imagenes` (`nodo2.py`) is independent of the order in which
the parallel per-image futures complete — any completion order (a
permutation of the input indices) yields exactly the response obtained
with in-order completion — and the response's image elements carry
strictly increasing original indices, i.e. they appear in input order. -/
theorem orden_respuesta_preservado
    (rotTam : Int × Int → Int → Int × Int)
    (gunzip : List Nat → Option (List Nat))
    (abrirImagen : List Nat → Option (Int × Int))
    (codificar : Nodo → List Char → Nat → Option (List Char))
    (elems : List ImagenElem) (orden : List Nat) (aplicarTrans : Bool)
    (h : orden.Perm (List.range elems.length)) :
    procesarLote rotTam gunzip abrirImagen codificar elems orden aplicarTrans =
      procesarLote rotTam gunzip abrirImagen codificar elems
        (List.range elems.length) aplicarTrans ∧
    List.Sorted (· < ·)
      ((procesarLote rotTam gunzip abrirImagen codificar elems orden
        aplicarTrans).hijos.map indiceHijo) := by
  have hclaves : List.insertionSort (· ≤ ·) orden = List.range elems.length :=
    claves_ordenadas h
  have hclaves2 :
      List.insertionSort (· ≤ ·) (List.range elems.length) = List.range elems.length :=
    claves_ordenadas (List.Perm.refl _)
  constructor
  · unfold procesarLote
    rw [hclaves, hclaves2]
  · have hh :
        (procesarLote rotTam gunzip abrirImagen codificar elems orden
          aplicarTrans).hijos =
        (List.range elems.length).filterMap
          (fun i => (pasoRespuesta codificar
            (resultadoEn rotTam gunzip abrirImagen elems aplicarTrans i) i).1) := by
      unfold procesarLote
      rw [hclaves]
      exact bucle_hijos _ _
    rw [hh, List.Sorted, List.pairwise_map]
    apply List.Pairwise.filterMap
      (fun i => (pasoRespuesta codificar
        (resultadoEn rotTam gunzip abrirImagen elems aplicarTrans i) i).1)
    · intro a a2 hlt b hb b2 hb2
      rw [paso_indice _ _ _ b hb, paso_indice _ _ _ b2 hb2]
      exact hlt
    · exact List.pairwise_lt_range elems.length

/-- Witness for C1: a concrete three-image batch processed with the
completion order `[2, 0, 1]` yields the same response as in-order
completion, with sorted indices. -/
theorem orden_respuesta_preservado_testigo :
    ([2, 0, 1] : List Nat).Perm
      (List.range ([⟨some (base64Codificar [1]), [], "JPEG".data, 85⟩,
        ⟨some (base64Codificar [1]), [], "JPEG".data, 85⟩,
        ⟨some (base64Codificar [1]), [], "JPEG".data, 85⟩] :
          List ImagenElem).length) ∧
    (procesarLote (fun t _ => t) gzipDescomprimir
        (fun bs => if bs = [1] then some ((10 : Int), (10 : Int)) else none)
        (fun _ _ _ => some "x".data)
        [⟨some (base64Codificar [1]), [], "JPEG".data, 85⟩,
         ⟨some (base64Codificar [1]), [], "JPEG".data, 85⟩,
         ⟨some (base64Codificar [1]), [], "JPEG".data, 85⟩]
        [2, 0, 1] true =
      procesarLote (fun t _ => t) gzipDescomprimir
        (fun bs => if bs = [1] then some ((10 : Int), (10 : Int)) else none)
        (fun _ _ _ => some "x".data)
        [⟨some (base64Codificar [1]), [], "JPEG".data, 85⟩,
         ⟨some (base64Codificar [1]), [], "JPEG".data, 85⟩,
         ⟨some (base64Codificar [1]), [], "JPEG".data, 85⟩]
        (List.range 3) true ∧
      List.Sorted (· < ·)
        ((procesarLote (fun t _ => t) gzipDescomprimir
          (fun bs => if bs = [1] then some ((10 : Int), (10 : Int)) else none)
          (fun _ _ _ => some "x".data)
          [⟨some (base64Codificar [1]), [], "JPEG".data, 85⟩,
           ⟨some (base64Codificar [1]), [], "JPEG".data, 85⟩,
           ⟨some (base64Codificar [1]), [], "JPEG".data, 85⟩]
          [2, 0, 1] true).hijos.map indiceHijo)) :=
  ⟨by decide,
    orden_respuesta_preservado (fun t _ => t) gzipDescomprimir
      (fun bs => if bs = [1] then some ((10 : Int), (10 : Int)) else none)
      (fun _ _ _ => some "x".data)
      [⟨some (base64Codificar [1]), [], "JPEG".data, 85⟩,
       ⟨some (base64Codificar [1]), [], "JPEG".data, 85⟩,
       ⟨some (base64Codificar [1]), [], "JPEG".data, 85⟩]
      [2, 0, 1] true (by decide)⟩

/-- C2, amended: in the optimized coordinator (`nodo2.py`) the response
attributes always satisfy `total_procesadas + total_errores = N` for an
admitted batch of `N` images, and — provided the encoder succeeds on
every processed image — every input index yields exactly one result
element (an encoding failure is counted in `total_errores` but emits no
element).  In the minimal coordinator (`nodo.py`) the property fails:
an image element with an empty payload is skipped by `continue` and
contributes neither a result element nor a count (see the
counterexample). -/
theorem conservacion_conteo
    (rotTam : Int × Int → Int → Int × Int)
    (gunzip : List Nat → Option (List Nat))
    (abrirImagen : List Nat → Option (Int × Int))
    (codificar : Nodo → List Char → Nat → Option (List Char))
    (elems : List ImagenElem) (orden : List Nat) (aplicarTrans : Bool)
    (h : orden.Perm (List.range elems.length)) :
    (procesarLote rotTam gunzip abrirImagen codificar elems orden
        aplicarTrans).totalProcesadas +
      (procesarLote rotTam gunzip abrirImagen codificar elems orden
        aplicarTrans).totalErrores = elems.length ∧
    ((∀ (nodo : Nodo) (formato : List Char) (calidad : Nat),
        (codificar nodo formato calidad).isSome = true) →
      (procesarLote rotTam gunzip abrirImagen codificar elems orden
        aplicarTrans).hijos.map indiceHijo = List.range elems.length) := by
  have hclaves : List.insertionSort (· ≤ ·) orden = List.range elems.length :=
    claves_ordenadas h
  constructor
  · unfold procesarLote
    rw [hclaves]
    have := bucle_total
      (fun i => pasoRespuesta codificar
        (resultadoEn rotTam gunzip abrirImagen elems aplicarTrans i) i)
      (List.range elems.length)
      (fun i _ => paso_total codificar _ i)
    simpa using this
  · intro hCod
    unfold procesarLote
    rw [hclaves]
    apply bucle_indices
    intro i _
    cases hres : resultadoEn rotTam gunzip abrirImagen elems aplicarTrans i with
    | fallo m => exact ⟨.conError m i, by simp [pasoRespuesta, hres], rfl⟩
    | exito nodo formato calidad =>
      obtain ⟨b64, hb64⟩ := Option.isSome_iff_exists.mp (hCod nodo formato calidad)
      refine ⟨.procesada
        { formato := formato, calidad := calidad,
          transformaciones := nodo.aplicadas,
          totalTransformaciones := nodo.aplicadas.length,
          indiceProcesado := i, texto := b64 }, ?_, rfl⟩
      simp [pasoRespuesta, hres, fusionar, hb64]

/-- Witness for C2: on the concrete three-image batch (one image has an
undecodable payload) with completion order `[2, 0, 1]` and a total
encoder, the counts sum to 3 and the child indices are `0, 1, 2`. -/
theorem conservacion_conteo_testigo :
    ([2, 0, 1] : List Nat).Perm
      (List.range ([⟨some (base64Codificar [1]), [], "JPEG".data, 85⟩,
        ⟨some (base64Codificar [2]), [], "JPEG".data, 85⟩,
        ⟨some (base64Codificar [1]), [], "JPEG".data, 85⟩] :
          List ImagenElem).length) ∧
    ((procesarLote (fun t _ => t) gzipDescomprimir
        (fun bs => if bs = [1] then some ((10 : Int), (10 : Int)) else none)
        (fun _ _ _ => some "x".data)
        [⟨some (base64Codificar [1]), [], "JPEG".data, 85⟩,
         ⟨some (base64Codificar [2]), [], "JPEG".data, 85⟩,
         ⟨some (base64Codificar [1]), [], "JPEG".data, 85⟩]
        [2, 0, 1] true).totalProcesadas +
      (procesarLote (fun t _ => t) gzipDescomprimir
        (fun bs => if bs = [1] then some ((10 : Int), (10 : Int)) else none)
        (fun _ _ _ => some "x".data)
        [⟨some (base64Codificar [1]), [], "JPEG".data, 85⟩,
         ⟨some (base64Codificar [2]), [], "JPEG".data, 85⟩,
         ⟨some (base64Codificar [1]), [], "JPEG".data, 85⟩]
        [2, 0, 1] true).totalErrores = 3 ∧
      (procesarLote (fun t _ => t) gzipDescomprimir
        (fun bs => if bs = [1] then some ((10 : Int), (10 : Int)) else none)
        (fun _ _ _ => some "x".data)
        [⟨some (base64Codificar [1]), [], "JPEG".data, 85⟩,
         ⟨some (base64Codificar [2]), [], "JPEG".data, 85⟩,
         ⟨some (base64Codificar [1]), [], "JPEG".data, 85⟩]
        [2, 0, 1] true).hijos.map indiceHijo = List.range 3) := by
  refine ⟨by decide, ?_⟩
  have hres := conservacion_conteo (fun t _ => t) gzipDescomprimir
    (fun bs => if bs = [1] then some ((10 : Int), (10 : Int)) else none)
    (fun _ _ _ => some "x".data)
    [⟨some (base64Codificar [1]), [], "JPEG".data, 85⟩,
     ⟨some (base64Codificar [2]), [], "JPEG".data, 85⟩,
     ⟨some (base64Codificar [1]), [], "JPEG".data, 85⟩]
    [2, 0, 1] true (by decide)
  exact ⟨hres.1, hres.2 (fun _ _ _ => rfl)⟩

/-! ## The minimal coordinator (`nodo.py`, `procesar_xml_imagenes`)

The minimal variant iterates the image elements sequentially.  An element
whose `text` is empty (`if not datos_b64: continue`) is skipped entirely —
no response element, no count.  Other elements are loaded through
`NodoOptimizado(temp_xml)` (which never raises: every failure falls back
to the built-in test image) and transformed; the processed nodes are
collected and, in a second pass, encoded into response elements tagged
`indice_procesado = j` (the position among the *processed* nodes, not the
original index).  `total_errores` counts only second-pass encoding
failures.  The node construction and the transformation loop act on
pixels through the external codec; they are parameters here (`cargar`,
`transforma`), since the counting behavior under study does not depend on
them. -/

/-- The post-admission body of `procesar_xml_imagenes` in `nodo.py`. -/
def procesarLoteMin (cargar : List Char → Nodo)
    (transforma : Nodo → List Char → Nodo)
    (codificar : Nodo → List Char → Nat → Option (List Char))
    (elems : List ImagenElem) : Respuesta :=
  let conDatos := elems.filter (fun elem => !(elem.texto.getD []).isEmpty)
  let nodos := conDatos.map (fun elem =>
    if elem.transformaciones.isEmpty then cargar (elem.texto.getD [])
    else transforma (cargar (elem.texto.getD [])) elem.transformaciones)
  let r := nodos.enum.foldl
    (fun acc par =>
      match codificar par.2 "JPEG".data 80 with
      | some b64 =>
        (acc.1 ++ [HijoRespuesta.procesada
          { formato := "JPEG".data, calidad := 80,
            transformaciones := par.2.aplicadas,
            totalTransformaciones := par.2.aplicadas.length,
            indiceProcesado := par.1, texto := b64 }],
         acc.2.1 + 1, acc.2.2)
      | none => (acc.1, acc.2.1, acc.2.2 + 1))
    ([], 0, 0)
  { hijos := r.1, totalProcesadas := r.2.1, totalErrores := r.2.2 }

/-- Counterexample for C2: in `nodo.py`, an admitted batch consisting of
one image element with an empty payload produces a response with no
result element at all and `total_procesadas + total_errores = 0 ≠ 1`:
the image is silently dropped, so not every input index yields a result
element and the counts do not sum to the batch size. -/
theorem conservacion_conteo_contraejemplo :
    (procesarLoteMin (fun _ => nodoInicial (300, 300)) (fun n _ => n)
        (fun _ _ _ => some "x".data)
        [⟨none, [], "JPEG".data, 85⟩]).totalProcesadas +
      (procesarLoteMin (fun _ => nodoInicial (300, 300)) (fun n _ => n)
        (fun _ _ _ => some "x".data)
        [⟨none, [], "JPEG".data, 85⟩]).totalErrores = 0 ∧
    (procesarLoteMin (fun _ => nodoInicial (300, 300)) (fun n _ => n)
        (fun _ _ _ => some "x".data)
        [⟨none, [], "JPEG".data, 85⟩]).hijos = [] ∧
    ([⟨none, [], "JPEG".data, 85⟩] : List ImagenElem).length = 1 ∧
    (0 : Nat) ≠ 1 := by
  refine ⟨by decide, by decide, by decide, by decide⟩

/-- C6 (confirmed): in an admitted batch of `K + 1` images where the
image at index `j` fails to decode and every other image processes
successfully (and the encoder succeeds on processed images), the response
has `total_procesadas = K` and `total_errores = 1`, exactly `K + 1`
result elements, exactly one error element — carrying the failing image's
original index `j` — and the whole child list is computed index by index
from each image's own individual result, so the failing image does not
affect any sibling's result. -/
theorem aislamiento_fallo
    (rotTam : Int × Int → Int → Int × Int)
    (gunzip : List Nat → Option (List Nat))
    (abrirImagen : List Nat → Option (Int × Int))
    (codificar : Nodo → List Char → Nat → Option (List Char))
    (elems : List ImagenElem) (orden : List Nat) (aplicarTrans : Bool)
    (K j : Nat) (hj : j < K + 1)
    (h : orden.Perm (List.range (K + 1)))
    (hJ : resultadoEn rotTam gunzip abrirImagen elems aplicarTrans j =
      .fallo .errorDecodificacion)
    (hOtros : ∀ i, i < K + 1 → i ≠ j → ∃ nodo formato calidad,
      resultadoEn rotTam gunzip abrirImagen elems aplicarTrans i =
        .exito nodo formato calidad)
    (hCod : ∀ (nodo : Nodo) (formato : List Char) (calidad : Nat),
      (codificar nodo formato calidad).isSome = true) :
    (procesarLote rotTam gunzip abrirImagen codificar elems orden
      aplicarTrans).totalProcesadas = K ∧
    (procesarLote rotTam gunzip abrirImagen codificar elems orden
      aplicarTrans).totalErrores = 1 ∧
    (procesarLote rotTam gunzip abrirImagen codificar elems orden
      aplicarTrans).hijos.length = K + 1 ∧
    (procesarLote rotTam gunzip abrirImagen codificar elems orden
      aplicarTrans).hijos.filter esError =
      [.conError .errorDecodificacion j] ∧
    (procesarLote rotTam gunzip abrirImagen codificar elems orden
      aplicarTrans).hijos =
      (List.range (K + 1)).filterMap
        (fun i => (pasoRespuesta codificar
          (resultadoEn rotTam gunzip abrirImagen elems aplicarTrans i) i).1) := by
  have hclaves : List.insertionSort (· ≤ ·) orden = List.range (K + 1) :=
    claves_ordenadas h
  have hfJ1 :
      (pasoRespuesta codificar
        (resultadoEn rotTam gunzip abrirImagen elems aplicarTrans j) j).2.1 = 0 ∧
      (pasoRespuesta codificar
        (resultadoEn rotTam gunzip abrirImagen elems aplicarTrans j) j).2.2 = 1 := by
    rw [hJ]
    exact ⟨rfl, rfl⟩
  have hfJopt :
      (pasoRespuesta codificar
        (resultadoEn rotTam gunzip abrirImagen elems aplicarTrans j) j).1 =
      some (.conError .errorDecodificacion j) := by
    rw [hJ]
    rfl
  have hfOtrosHijo : ∀ i, i < K + 1 → i ≠ j → ∃ h0,
      (pasoRespuesta codificar
        (resultadoEn rotTam gunzip abrirImagen elems aplicarTrans i) i).1 =
      some (.procesada h0) := by
    intro i hi hne
    obtain ⟨nodo, formato, calidad, hres⟩ := hOtros i hi hne
    obtain ⟨b64, hb64⟩ := Option.isSome_iff_exists.mp (hCod nodo formato calidad)
    refine ⟨⟨formato, calidad, nodo.aplicadas, nodo.aplicadas.length, i, b64⟩, ?_⟩
    simp [pasoRespuesta, hres, fusionar, hb64]
  have hfOtros : ∀ i ∈ List.range (K + 1), i ≠ j →
      (pasoRespuesta codificar
        (resultadoEn rotTam gunzip abrirImagen elems aplicarTrans i) i).2.1 = 1 ∧
      (pasoRespuesta codificar
        (resultadoEn rotTam gunzip abrirImagen elems aplicarTrans i) i).2.2 = 0 := by
    intro i hi hne
    obtain ⟨nodo, formato, calidad, hres⟩ := hOtros i (List.mem_range.mp hi) hne
    obtain ⟨b64, hb64⟩ := Option.isSome_iff_exists.mp (hCod nodo formato calidad)
    rw [hres]
    simp [pasoRespuesta, fusionar, hb64]
  have hfTodos : ∀ i ∈ List.range (K + 1), ∃ c,
      (pasoRespuesta codificar
        (resultadoEn rotTam gunzip abrirImagen elems aplicarTrans i) i).1 = some c ∧
      indiceHijo c = i := by
    intro i hi
    by_cases hij : i = j
    · subst hij
      exact ⟨.conError .errorDecodificacion i, hfJopt, rfl⟩
    · obtain ⟨h0, hh0⟩ := hfOtrosHijo i (List.mem_range.mp hi) hij
      refine ⟨.procesada h0, hh0, ?_⟩
      have := paso_indice codificar
        (resultadoEn rotTam gunzip abrirImagen elems aplicarTrans i) i
        (.procesada h0) (by rw [hh0]; simp)
      exact this
  have hmem : j ∈ List.range (K + 1) := List.mem_range.mpr hj
  have hcuentas := bucle_indicador
    (fun i => pasoRespuesta codificar
      (resultadoEn rotTam gunzip abrirImagen elems aplicarTrans i) i)
    (List.range (K + 1)) j hmem (List.nodup_range _) hfJ1
    (fun i hi hne => hfOtros i hi hne)
  have hindices := bucle_indices
    (fun i => pasoRespuesta codificar
      (resultadoEn rotTam gunzip abrirImagen elems aplicarTrans i) i)
    (List.range (K + 1)) hfTodos
  have herror := bucle_error_unico
    (fun i => pasoRespuesta codificar
      (resultadoEn rotTam gunzip abrirImagen elems aplicarTrans i) i)
    (List.range (K + 1)) j .errorDecodificacion hmem (List.nodup_range _) hfJopt
    (fun i hi hne => hfOtrosHijo i (List.mem_range.mp hi) hne)
  have hlargo : (bucleRespuesta
      (fun i => pasoRespuesta codificar
        (resultadoEn rotTam gunzip abrirImagen elems aplicarTrans i) i)
      (List.range (K + 1))).1.length = K + 1 := by
    have := congrArg List.length hindices
    simpa using this
  simp only [procesarLote, hclaves]
  refine ⟨?_, ?_, hlargo, herror, bucle_hijos _ _⟩
  · rw [hcuentas.1]
    simp
  · exact hcuentas.2

/-- Witness for C6: a concrete batch of three images in which the middle
payload decodes to bytes the codec cannot open yields two processed
images, one error, and the single error element carries index 1. -/
theorem aislamiento_fallo_testigo :
    (1 : Nat) < 2 + 1 ∧
    ([2, 1, 0] : List Nat).Perm (List.range (2 + 1)) ∧
    (procesarLote (fun t _ => t) gzipDescomprimir
      (fun bs => if bs = [1] then some ((10 : Int), (10 : Int)) else none)
      (fun _ _ _ => some "x".data)
      [⟨some (base64Codificar [1]), [], "JPEG".data, 85⟩,
       ⟨some (base64Codificar [2]), [], "JPEG".data, 85⟩,
       ⟨some (base64Codificar [1]), [], "JPEG".data, 85⟩]
      [2, 1, 0] true).totalProcesadas = 2 ∧
    (procesarLote (fun t _ => t) gzipDescomprimir
      (fun bs => if bs = [1] then some ((10 : Int), (10 : Int)) else none)
      (fun _ _ _ => some "x".data)
      [⟨some (base64Codificar [1]), [], "JPEG".data, 85⟩,
       ⟨some (base64Codificar [2]), [], "JPEG".data, 85⟩,
       ⟨some (base64Codificar [1]), [], "JPEG".data, 85⟩]
      [2, 1, 0] true).totalErrores = 1 ∧
    (procesarLote (fun t _ => t) gzipDescomprimir
      (fun bs => if bs = [1] then some ((10 : Int), (10 : Int)) else none)
      (fun _ _ _ => some "x".data)
      [⟨some (base64Codificar [1]), [], "JPEG".data, 85⟩,
       ⟨some (base64Codificar [2]), [], "JPEG".data, 85⟩,
       ⟨some (base64Codificar [1]), [], "JPEG".data, 85⟩]
      [2, 1, 0] true).hijos.filter esError =
      [.conError .errorDecodificacion 1] := by
  have hmain := aislamiento_fallo (fun t _ => t) gzipDescomprimir
    (fun bs => if bs = [1] then some ((10 : Int), (10 : Int)) else none)
    (fun _ _ _ => some "x".data)
    [⟨some (base64Codificar [1]), [], "JPEG".data, 85⟩,
     ⟨some (base64Codificar [2]), [], "JPEG".data, 85⟩,
     ⟨some (base64Codificar [1]), [], "JPEG".data, 85⟩]
    [2, 1, 0] true 2 1 (by decide) (by decide) (by decide)
    (by
      intro i hi hne
      interval_cases i
      · exact ⟨_, _, _, rfl⟩
      · exact absurd rfl hne
      · exact ⟨_, _, _, rfl⟩)
    (fun _ _ _ => rfl)
  exact ⟨by decide, by decide, hmain.1, hmain.2.1, hmain.2.2.2.1⟩

end NodoImage


